import Mathlib

/-!
# Verification of the claude-code-spawn process runner and session logger

This development gives a shallow embedding of the repository's two components:

* `runCommand` (index.js, the Logger-enabled version): one invocation is modelled
  as a deterministic machine driven by a list of child-process events
  (`ChildEvent`).  The promise is modelled by the list of `resolve`/`reject`
  calls made by the handlers (`attempts`); the promise's actual value is the
  first element (`settled`), since a JS promise keeps the first settlement.
  Log-file writes may fail; a write-failure oracle `wfail : Nat → Bool`
  (indexed by the running count of attempted writes) decides which
  `appendFile` calls throw.  A failed write inside `Logger.logStdout` /
  `logStderr` is caught (`.catch(...)`) and reported to the error channel;
  a failed write inside the awaited `logger.initLog` / `logExit` / `logError`
  calls aborts the enclosing async function, so the code after the `await`
  (including `resolve`/`reject`) never runs — exactly as in the source.

* `Logger` (lib/logger.js): the constructor's `sessionId` derivation, and the
  read-back functions `getRecentSessions` / `viewLog` over a model of the
  date-partitioned log directory.  A log-file line is either a record that
  `JSON.parse` accepts (`LogLine.parsed`) or one it rejects
  (`LogLine.malformed`); JSON grammar itself is external to the repository.
-/

namespace ClaudeSpawn

/-- The `stdio` values used by this repository: `'pipe'` (default) or `'ignore'`. -/
inductive Stdio
  | pipe
  | ignore
deriving DecidableEq

/-- The option record destructured at the top of `runCommand`
(index.js lines 304–316), with the same defaults.  `logToConsole` is `none`
when the caller did not supply it; the effective value then defaults to
`logging` (line 315).  The caller environment is handled separately by
`cleanEnv` below.  `cwd` is forwarded to `spawn` and plays no further role. -/
structure Config where
  command : String
  args : List String := []
  cwd : String := ""
  detached : Bool := false
  stdio : Stdio := .pipe
  timeout : Option Nat := none
  logging : Bool := true
  saveLog : Bool := false
  logLevel : String := "full"
  logToConsole : Option Bool := none
deriving DecidableEq

/-- Default `logToConsole = logging` (index.js line 315); the Logger keeps a
supplied boolean as is (`options.logToConsole !== false`, logger.js line 528). -/
def Config.effLogToConsole (cfg : Config) : Bool :=
  cfg.logToConsole.getD cfg.logging

/-- Embeds `this.logLevel = options.logLevel || 'full'` (logger.js line 526):
an empty string is falsy in JS, so it also falls back to `'full'`. -/
def Config.effLogLevel (cfg : Config) : String :=
  if cfg.logLevel = "" then "full" else cfg.logLevel

/-- Embeds the guard `if (timeout)` around `setTimeout` (index.js line 359): the timer is
armed only for a truthy timeout, so `0` arms no timer. -/
def Config.hasTimer (cfg : Config) : Bool :=
  match cfg.timeout with
  | some t => t != 0
  | none => false

/-- The per-invocation Logger identifiers consumed by `runCommand`
(`logger.sessionId`, `logger.logFile`). -/
structure LoggerInfo where
  sessionId : String := ""
  logFile : String := ""
deriving DecidableEq

/-- One event delivered by the event loop to the handlers registered in
`runCommand`: a stdout/stderr `data` chunk, the child's `error` event, the
child's `exit` event, or the firing of the armed timeout timer. -/
inductive ChildEvent
  | out (data : String)
  | err (data : String)
  | errored (message : String)
  | exited (code : Option Int) (signal : Option String)
  | timerFired
deriving DecidableEq

/-- Whether the event is a `data` chunk. -/
def ChildEvent.isData : ChildEvent → Bool
  | .out _ => true
  | .err _ => true
  | _ => false

def ChildEvent.isTimer : ChildEvent → Bool
  | .timerFired => true
  | _ => false

def ChildEvent.isErrored : ChildEvent → Bool
  | .errored _ => true
  | _ => false

def ChildEvent.isExited : ChildEvent → Bool
  | .exited _ _ => true
  | _ => false

/-- A record appended to the session log file by `Logger.writeLog`
(timestamps and elapsed milliseconds are wall-clock data and are omitted). -/
inductive LogRecord
  | sessionStart (sessionId command : String) (args : List String)
  | stdoutChunk (data : String)
  | stderrChunk (data : String)
  | errorEvent (message : String)
  | sessionEnd (code : Option Int) (signal : Option String)
deriving DecidableEq

/-- Side effects of `runCommand` on the child process handle. -/
inductive Action
  | closeStdin
  | kill (signal : String)
  | unref
deriving DecidableEq

/-- The value passed to `resolve`.  JS objects may simply lack a field, hence
the `Option` wrappers: the detached result carries no `stdout`/`stderr`/`code`
field at all, while the exit result always carries them. -/
structure SpawnResult where
  success : Bool
  stdout : Option String := none
  stderr : Option String := none
  code : Option (Option Int) := none
  pid : Nat
  detached : Option Bool := none
  message : Option String := none
  sessionId : Option String := none
  logFile : Option String := none
deriving DecidableEq

/-- One call to `resolve` or `reject`. -/
inductive Outcome
  | resolved (r : SpawnResult)
  | rejected (message : String)
deriving DecidableEq

/-- The mutable state shared by the closures inside `runCommand`:
the `stdout`/`stderr` accumulators, the `timedOut` flag, whether the timeout
timer is still armed (`setTimeout` armed, not yet fired, not `clearTimeout`ed),
the sequence of `resolve`/`reject` calls, the session-log contents, the raw
console echoes of chunks, the `console.error` channel for caught log-write
failures, and the actions applied to the child handle. -/
structure RunState where
  spawned : Bool := false
  stdout : String := ""
  stderr : String := ""
  timedOut : Bool := false
  timerArmed : Bool := false
  writeCount : Nat := 0
  log : List LogRecord := []
  consoleOut : List String := []
  errorChannel : List String := []
  actions : List Action := []
  attempts : List Outcome := []
deriving DecidableEq

/-- A JS promise keeps its first settlement; later `resolve`/`reject` calls
are no-ops.  The machine records every call in order, so the promise's final
state is the head. -/
def RunState.settled (st : RunState) : Option Outcome :=
  st.attempts.head?

/-- The fixed data of one invocation: the options, the write-failure oracle,
the child's pid, and the Logger's identifiers. -/
structure Ctx where
  cfg : Config
  wfail : Nat → Bool
  pid : Nat
  li : LoggerInfo

/-- Embeds `Logger.writeLog` (logger.js lines 556–566): a no-op unless `saveLog`;
otherwise one `appendFile` call, which the oracle may fail.  Returns the new
state and whether the write succeeded. -/
def tryWrite (c : Ctx) (st : RunState) (entry : LogRecord) : RunState × Bool :=
  if c.cfg.saveLog then
    let ok := !(c.wfail st.writeCount)
    ({ st with
        writeCount := st.writeCount + 1,
        log := if ok then st.log ++ [entry] else st.log }, ok)
  else (st, true)

/-- Record one `resolve`/`reject` call. -/
def attemptSettle (st : RunState) (o : Outcome) : RunState :=
  { st with attempts := st.attempts ++ [o] }

/-- The `.catch(err => console.error('Log write error:', err))` attached to the
per-chunk writes: a failed write is reported on the error channel and the
invocation continues. -/
def reportIfFailed (r : RunState × Bool) : RunState :=
  if r.2 then r.1
  else { r.1 with errorChannel := r.1.errorChannel ++ ["Log write error"] }

/-- Embeds `Logger.logStdout` (logger.js lines 568–581): echo to console when
`logToConsole`, then append a `stdout` record when `logLevel === 'full'`;
a write failure is caught and reported via `console.error`. -/
def logStdoutStep (c : Ctx) (st : RunState) (data : String) : RunState :=
  let st1 := if c.cfg.effLogToConsole then
      { st with consoleOut := st.consoleOut ++ ["[stdout] " ++ data] }
    else st
  if c.cfg.effLogLevel = "full" then
    reportIfFailed (tryWrite c st1 (.stdoutChunk data))
  else st1

/-- Embeds `Logger.logStderr` (logger.js lines 583–596), symmetric to `logStdout`. -/
def logStderrStep (c : Ctx) (st : RunState) (data : String) : RunState :=
  let st1 := if c.cfg.effLogToConsole then
      { st with consoleOut := st.consoleOut ++ ["[stderr] " ++ data] }
    else st
  if c.cfg.effLogLevel = "full" then
    reportIfFailed (tryWrite c st1 (.stderrChunk data))
  else st1

/-- The `data` handlers (index.js lines 368–386), registered only when
`stdio === 'pipe'`: append the chunk to the accumulator, then either hand the
chunk to the Logger (when `saveLog`) or echo it raw (when `logging`). -/
def stepData (c : Ctx) (st : RunState) (isOut : Bool) (data : String) : RunState :=
  if c.cfg.stdio = .pipe then
    let st1 := if isOut then { st with stdout := st.stdout ++ data }
      else { st with stderr := st.stderr ++ data }
    if c.cfg.saveLog then
      if isOut then logStdoutStep c st1 data else logStderrStep c st1 data
    else if c.cfg.logging then
      { st1 with consoleOut :=
          st1.consoleOut ++ [(if isOut then "[stdout] " else "[stderr] ") ++ data] }
    else st1
  else st

/-- The timer callback (index.js lines 360–364): set `timedOut`, send
`SIGTERM`, reject with the timeout message.  A one-shot timer fires only while
armed. -/
def stepTimer (c : Ctx) (st : RunState) : RunState :=
  if st.timerArmed then
    match c.cfg.timeout with
    | some t =>
      attemptSettle
        { st with
            timedOut := true,
            timerArmed := false,
            actions := st.actions ++ [.kill "SIGTERM"] }
        (.rejected ("Command timed out after " ++ toString t ++ "ms"))
    | none => st
  else st

/-- Rendering of a JS number-or-null exit code inside a template string. -/
def codeText : Option Int → String
  | some i => toString i
  | none => "null"

/-- The non-zero-exit rejection message (index.js line 427):
`Command failed with code {code}: {stderr || stdout}`. -/
def failureMessage (code : Option Int) (stderrBuf stdoutBuf : String) : String :=
  "Command failed with code " ++ codeText code ++ ": " ++
    (if stderrBuf = "" then stdoutBuf else stderrBuf)

/-- The result object built in the `exit` handler (index.js lines 411–422). -/
def exitResult (c : Ctx) (st : RunState) (code : Option Int) : SpawnResult :=
  { success := code == some 0
    stdout := some st.stdout
    stderr := some st.stderr
    code := some code
    pid := c.pid
    sessionId := if c.cfg.saveLog then some c.li.sessionId else none
    logFile := if c.cfg.saveLog then some c.li.logFile else none }

/-- Tail of the `exit` handler (index.js lines 424–428): resolve on code 0,
otherwise reject with `failureMessage`. -/
def finishExit (c : Ctx) (st : RunState) (code : Option Int) : RunState :=
  if code = some 0 then attemptSettle st (.resolved (exitResult c st code))
  else attemptSettle st (.rejected (failureMessage code st.stderr st.stdout))

/-- The `error` handler (index.js lines 388–397): clear the timer, append an
`error` record when `saveLog` (a failure of that awaited write aborts the
handler before `reject`), then reject with the error's message. -/
def stepErrored (c : Ctx) (st : RunState) (message : String) : RunState :=
  let st1 := { st with timerArmed := false }
  if c.cfg.saveLog then
    let r := tryWrite c st1 (.errorEvent message)
    if r.2 then attemptSettle r.1 (.rejected message) else r.1
  else attemptSettle st1 (.rejected message)

/-- The `exit` handler (index.js lines 399–429): clear the timer; return
early when a timeout already fired; append the `session_end` record when
`saveLog` (a failure of that awaited write aborts the handler before
`resolve`/`reject`); then settle according to the exit code. -/
def stepExit (c : Ctx) (st : RunState) (code : Option Int) (signal : Option String) :
    RunState :=
  let st1 := { st with timerArmed := false }
  if st.timedOut then st1
  else if c.cfg.saveLog then
    let r := tryWrite c st1 (.sessionEnd code signal)
    if r.2 then finishExit c r.1 code else r.1
  else finishExit c st1 code

/-- Dispatch one event-loop callback. -/
def step (c : Ctx) (st : RunState) : ChildEvent → RunState
  | .out s => stepData c st true s
  | .err s => stepData c st false s
  | .errored m => stepErrored c st m
  | .exited code signal => stepExit c st code signal
  | .timerFired => stepTimer c st

/-- Run the registered handlers over the event-loop trace. -/
def procEvents (c : Ctx) (st : RunState) (events : List ChildEvent) : RunState :=
  events.foldl (step c) st

/-- The immediate resolution value for detached invocations
(index.js lines 435–440). -/
def detachedResult (pid : Nat) : SpawnResult :=
  { success := true
    pid := pid
    detached := some true
    message := some "Process started in background" }

/-- The oracle under which every log write succeeds. -/
def noFail : Nat → Bool := fun _ => false

/-- One invocation of `runCommand` (index.js lines 304–443).

Synchronous phase, in source order: when `saveLog`, `await logger.initLog`
writes the `session_start` record — if that write fails the async executor
aborts, nothing is spawned and the promise never settles.  `spawn` throws
synchronously on an empty command (`ERR_INVALID_ARG_VALUE`); thrown inside the
`async` executor this also leaves the promise unsettled and nothing spawned.
Otherwise the child is spawned, stdin is closed for `claude` commands with
piped stdio, the timer is armed when `timeout` is truthy, and a detached
invocation resolves immediately after `unref`.  Then the event trace drives
the handlers. -/
def runCommand (cfg : Config) (wfail : Nat → Bool) (pid : Nat) (li : LoggerInfo)
    (events : List ChildEvent) : RunState :=
  let c : Ctx := ⟨cfg, wfail, pid, li⟩
  let st0 : RunState := {}
  let init := if cfg.saveLog then
      tryWrite c st0 (.sessionStart li.sessionId cfg.command cfg.args)
    else (st0, true)
  if init.2 = false then init.1
  else if cfg.command = "" then init.1
  else
    let st2 := { init.1 with spawned := true, timerArmed := cfg.hasTimer }
    let st3 := if cfg.command = "claude" ∧ cfg.stdio = .pipe then
        { st2 with actions := st2.actions ++ [.closeStdin] }
      else st2
    let st4 := if cfg.detached then
        attemptSettle { st3 with actions := st3.actions ++ [.unref] }
          (.resolved (detachedResult pid))
      else st3
    procEvents c st4 events

/-- Every event of the trace is a `data` chunk. -/
def dataOnly (events : List ChildEvent) : Bool :=
  events.all ChildEvent.isData

/-- Concatenation of the stdout chunks of a trace. -/
def outConcat : List ChildEvent → String
  | [] => ""
  | .out s :: es => s ++ outConcat es
  | _ :: es => outConcat es

/-- Concatenation of the stderr chunks of a trace. -/
def errConcat : List ChildEvent → String
  | [] => ""
  | .err s :: es => s ++ errConcat es
  | _ :: es => errConcat es

/-- Number of per-chunk log writes a data trace performs: one per chunk when
output is piped and the effective log level is `'full'`, none otherwise. -/
def persistedChunkWrites (cfg : Config) (events : List ChildEvent) : Nat :=
  if cfg.saveLog ∧ cfg.stdio = .pipe ∧ cfg.effLogLevel = "full" then
    events.countP (fun e => e.isData)
  else 0

/-! ## Environment cleaning (index.js lines 318–320)

`const cleanEnv = { ...env }; delete cleanEnv.CLAUDECODE;` — the object passed
to `spawn` as the child environment is a copy of the caller-supplied `env`
(defaulting to `process.env`) with the `CLAUDECODE` key removed.  Environment
objects are modelled as maps into optional values. -/

/-- A JS environment object: key to optional value. -/
def EnvMap : Type := String → Option String

/-- The child environment actually built by `runCommand`: the caller map with
the `CLAUDECODE` key deleted.  No merging over any default map occurs. -/
def cleanEnv (env : EnvMap) : EnvMap :=
  fun k => if k = "CLAUDECODE" then none else env k

/-- Modelled from the spec: "merge caller-supplied environment over process
defaults, then unconditionally remove the nested-execution marker variable".
Stated only for comparison against `cleanEnv`, which is what the code does. -/
def mergedCleanEnvSpec (defaults env : EnvMap) : EnvMap :=
  fun k => if k = "CLAUDECODE" then none else
    match env k with
    | some v => some v
    | none => defaults k

/-! ## The Logger constructor (logger.js lines 524–532) -/

/-- The options accepted by `new Logger(options)`. -/
structure LoggerOptions where
  logDir : Option String := none
  logLevel : Option String := none
  saveLog : Option Bool := none
  logToConsole : Option Bool := none
deriving DecidableEq

/-- The fields set by the Logger constructor. -/
structure LoggerState where
  logDir : String
  logLevel : String
  saveLog : Bool
  logToConsole : Bool
  sessionId : String
  startTime : Nat
deriving DecidableEq

/-- Embeds `this.sessionId = Date.now() + '-' + process.pid` (logger.js line 529):
the millisecond clock value and the process id, rendered in decimal and
joined by a dash. -/
def sessionIdOf (now pid : Nat) : String :=
  Nat.repr now ++ "-" ++ Nat.repr pid

/-- The Logger constructor: `||` falls back on falsy values (absent or empty
strings), `!== false` keeps everything except an explicit `false`. -/
def loggerCreate (options : LoggerOptions) (cwd : String) (now pid : Nat) : LoggerState :=
  { logDir :=
      match options.logDir with
      | some s => if s = "" then cwd ++ "/claude-spawn-logs" else s
      | none => cwd ++ "/claude-spawn-logs"
    logLevel :=
      match options.logLevel with
      | some s => if s = "" then "full" else s
      | none => "full"
    saveLog := options.saveLog != some false
    logToConsole := options.logToConsole != some false
    sessionId := sessionIdOf now pid
    startTime := now }

/-! ## Logger read-back (logger.js lines 615–685)

The log root is modelled as the list of date directories with their session
files; each file is the list of its lines, a line being either a record that
`JSON.parse` accepts or one it throws on. -/

/-- The fields of a parsed log entry that the read-back code inspects.
A JSON object may lack any of them. -/
structure Entry where
  type : String
  sessionId : Option String := none
  command : Option String := none
  args : Option (List String) := none
  timestamp : Option String := none
deriving DecidableEq

/-- One line of a session log file. -/
inductive LogLine
  | parsed (e : Entry)
  | malformed (raw : String)
deriving DecidableEq

/-- One file of a date directory. -/
structure LogFileRec where
  name : String
  lines : List LogLine
deriving DecidableEq

/-- One date directory of the log root. -/
structure DateDir where
  date : String
  files : List LogFileRec
deriving DecidableEq

/-- Embeds `file.endsWith('.log')` on a directory-entry name. -/
def nameEndsWith (s suffix : String) : Bool :=
  suffix.data.isSuffixOf s.data

/-- Lexicographic comparison of character lists, the order JS string
comparison uses inside `Array.prototype.sort`. -/
def charListLt : List Char → List Char → Bool
  | [], [] => false
  | [], _ :: _ => true
  | _ :: _, [] => false
  | a :: as, b :: bs => if a < b then true else if b < a then false else charListLt as bs

/-- JS string comparison. -/
def strLt (a b : String) : Bool := charListLt a.data b.data

/-- Stable insertion into a list sorted ascending by `key`. -/
def insertAsc {α : Type} (key : α → String) (a : α) : List α → List α
  | [] => [a]
  | b :: bs => if strLt (key a) (key b) then a :: b :: bs else b :: insertAsc key a bs

/-- Embeds `readdir(...).sort().reverse()`: stable ascending lexicographic sort of
the directory entries, then reversed, i.e. lexicographically descending. -/
def sortDesc {α : Type} (key : α → String) (l : List α) : List α :=
  (l.foldl (fun acc a => insertAsc key a acc) []).reverse

/-- One element of the session index built by `getRecentSessions`
(`logFile` is kept as the file's contents: the model's stand-in for the path,
read back by `viewLog`). -/
structure SessionRec where
  sessionId : Option String
  command : Option String
  args : Option (List String)
  timestamp : Option String
  fileLines : List LogLine
deriving DecidableEq

/-- The inner loop body of `getRecentSessions` (logger.js lines 626–652):
skip non-`.log` names; read the first line; skip it unless it parses to a
`session_start` record; push the index entry; stop once `limit` entries are
collected (the flag models the early `return`). -/
def scanFile (limit : Nat) (acc : List SessionRec × Bool) (f : LogFileRec) :
    List SessionRec × Bool :=
  if acc.2 then acc
  else if nameEndsWith f.name ".log" then
    match f.lines.head? with
    | some (.parsed e) =>
      if e.type = "session_start" then
        let acc1 := acc.1 ++ [⟨e.sessionId, e.command, e.args, e.timestamp, f.lines⟩]
        (acc1, decide (limit ≤ acc1.length))
      else acc
    | _ => acc
  else acc

/-- Embeds `Logger.getRecentSessions` (logger.js lines 615–661): scan date
directories newest first, files newest first within each. -/
def getRecentSessions (fs : List DateDir) (limit : Nat) : List SessionRec :=
  ((sortDesc (fun dd => dd.date) fs).foldl
    (fun acc dd => (sortDesc (fun f => f.name) dd.files).foldl (scanFile limit) acc)
    ([], false)).1

/-- The parse of a whole session file: `JSON.parse` each line, silently
skipping the lines it rejects (logger.js lines 676–682). -/
def parseLines (lines : List LogLine) : List Entry :=
  lines.filterMap fun l =>
    match l with
    | .parsed e => some e
    | .malformed _ => none

/-- Embeds `Logger.viewLog` (logger.js lines 663–685): resolve the session id
against an index of at most the 100 most recent sessions; fail when absent;
otherwise return the parseable entries of the file in order. -/
def viewLog (sessionId : String) (fs : List DateDir) : Except String (List Entry) :=
  let sessions := getRecentSessions fs 100
  match sessions.find? (fun s => s.sessionId == some sessionId) with
  | none => .error ("Session " ++ sessionId ++ " not found")
  | some s => .ok (parseLines s.fileLines)

/-- The `resolve`/`reject` call made by the tail of the exit handler, as a
function of the accumulated buffers. -/
def exitOutcome (c : Ctx) (outBuf errBuf : String) (code : Option Int) : Outcome :=
  if code = some 0 then
    .resolved { success := code == some 0
                stdout := some outBuf
                stderr := some errBuf
                code := some code
                pid := c.pid
                sessionId := if c.cfg.saveLog then some c.li.sessionId else none
                logFile := if c.cfg.saveLog then some c.li.logFile else none }
  else .rejected (failureMessage code errBuf outBuf)

/-- The state at the end of the synchronous phase of `runCommand`, for a
non-empty command and a successful `session_start` write: the child is
spawned, the `session_start` record is in the log when `saveLog`, stdin was
closed for piped `claude` invocations, the timer is armed for a truthy
timeout, and a detached invocation has already resolved. -/
def startState (cfg : Config) (pid : Nat) (li : LoggerInfo) : RunState :=
  { spawned := true
    timerArmed := cfg.hasTimer
    writeCount := if cfg.saveLog then 1 else 0
    log := if cfg.saveLog then [.sessionStart li.sessionId cfg.command cfg.args] else []
    actions := (if cfg.command = "claude" ∧ cfg.stdio = .pipe then [.closeStdin] else []) ++
      (if cfg.detached then [.unref] else [])
    attempts := if cfg.detached then [.resolved (detachedResult pid)] else [] }

/-- Equality of two run states on everything except the log file contents and
the error channel: used to compare a run whose chunk writes may fail with the
run in which every write succeeds. -/
def coreEq (s1 s2 : RunState) : Prop :=
  s1.spawned = s2.spawned ∧ s1.stdout = s2.stdout ∧ s1.stderr = s2.stderr ∧
    s1.timedOut = s2.timedOut ∧ s1.timerArmed = s2.timerArmed ∧
    s1.writeCount = s2.writeCount ∧ s1.attempts = s2.attempts

/-- The numeric value of a decimal digit character. -/
def digitVal (c : Char) : Nat := c.toNat - 48

/-- The number denoted by a most-significant-first list of decimal digit
characters — the reading direction of `Nat.repr`'s output. -/
def digitsVal (l : List Char) : Nat :=
  l.foldl (fun a c => 10 * a + digitVal c) 0

/-!  ## Helper lemmas about the `runCommand` machine -/

theorem tryWrite_fst (c : Ctx) (st : RunState) (e : LogRecord) :
    (tryWrite c st e).1.attempts = st.attempts ∧
    (tryWrite c st e).1.timedOut = st.timedOut ∧
    (tryWrite c st e).1.timerArmed = st.timerArmed ∧
    (tryWrite c st e).1.spawned = st.spawned ∧
    (tryWrite c st e).1.actions = st.actions ∧
    (tryWrite c st e).1.stdout = st.stdout ∧
    (tryWrite c st e).1.stderr = st.stderr ∧
    (tryWrite c st e).1.consoleOut = st.consoleOut ∧
    (tryWrite c st e).1.errorChannel = st.errorChannel := by
  unfold tryWrite
  split <;> simp

theorem reportIfFailed_core (r : RunState × Bool) :
    (reportIfFailed r).attempts = r.1.attempts ∧
    (reportIfFailed r).timedOut = r.1.timedOut ∧
    (reportIfFailed r).timerArmed = r.1.timerArmed ∧
    (reportIfFailed r).spawned = r.1.spawned ∧
    (reportIfFailed r).actions = r.1.actions ∧
    (reportIfFailed r).stdout = r.1.stdout ∧
    (reportIfFailed r).stderr = r.1.stderr ∧
    (reportIfFailed r).writeCount = r.1.writeCount ∧
    (reportIfFailed r).log = r.1.log := by
  unfold reportIfFailed
  split <;> simp

theorem logStdoutStep_core (c : Ctx) (st : RunState) (s : String) :
    (logStdoutStep c st s).attempts = st.attempts ∧
    (logStdoutStep c st s).timedOut = st.timedOut ∧
    (logStdoutStep c st s).timerArmed = st.timerArmed ∧
    (logStdoutStep c st s).spawned = st.spawned ∧
    (logStdoutStep c st s).actions = st.actions ∧
    (logStdoutStep c st s).stdout = st.stdout ∧
    (logStdoutStep c st s).stderr = st.stderr := by
  unfold logStdoutStep
  split_ifs <;> simp_all [reportIfFailed_core, tryWrite_fst]

theorem logStderrStep_core (c : Ctx) (st : RunState) (s : String) :
    (logStderrStep c st s).attempts = st.attempts ∧
    (logStderrStep c st s).timedOut = st.timedOut ∧
    (logStderrStep c st s).timerArmed = st.timerArmed ∧
    (logStderrStep c st s).spawned = st.spawned ∧
    (logStderrStep c st s).actions = st.actions ∧
    (logStderrStep c st s).stdout = st.stdout ∧
    (logStderrStep c st s).stderr = st.stderr := by
  unfold logStderrStep
  split_ifs <;> simp_all [reportIfFailed_core, tryWrite_fst]

theorem stepData_core (c : Ctx) (st : RunState) (isOut : Bool) (s : String) :
    (stepData c st isOut s).attempts = st.attempts ∧
    (stepData c st isOut s).timedOut = st.timedOut ∧
    (stepData c st isOut s).timerArmed = st.timerArmed ∧
    (stepData c st isOut s).spawned = st.spawned ∧
    (stepData c st isOut s).actions = st.actions := by
  unfold stepData
  split_ifs <;>
    simp_all [logStdoutStep_core, logStderrStep_core]

theorem stepData_out_buffers (c : Ctx) (st : RunState) (s : String)
    (hp : c.cfg.stdio = .pipe) :
    (stepData c st true s).stdout = st.stdout ++ s ∧
    (stepData c st true s).stderr = st.stderr := by
  unfold stepData
  split_ifs <;> simp_all [logStdoutStep_core, logStderrStep_core]

theorem stepData_err_buffers (c : Ctx) (st : RunState) (s : String)
    (hp : c.cfg.stdio = .pipe) :
    (stepData c st false s).stdout = st.stdout ∧
    (stepData c st false s).stderr = st.stderr ++ s := by
  unfold stepData
  split_ifs <;> simp_all [logStdoutStep_core, logStderrStep_core]

theorem stepTimer_disarmed (c : Ctx) (st : RunState) (h : st.timerArmed = false) :
    stepTimer c st = st := by
  unfold stepTimer
  simp [h]

theorem stepExit_timedOut (c : Ctx) (st : RunState) (code : Option Int)
    (sig : Option String) (h : st.timedOut = true) :
    stepExit c st code sig = { st with timerArmed := false } := by
  unfold stepExit
  simp [h]

theorem attemptSettle_fields (st : RunState) (o : Outcome) :
    (attemptSettle st o).attempts = st.attempts ++ [o] ∧
    (attemptSettle st o).log = st.log ∧
    (attemptSettle st o).timedOut = st.timedOut ∧
    (attemptSettle st o).timerArmed = st.timerArmed ∧
    (attemptSettle st o).spawned = st.spawned := by
  simp [attemptSettle]

theorem finishExit_attempts (c : Ctx) (st : RunState) (code : Option Int) :
    (finishExit c st code).attempts =
      st.attempts ++ [exitOutcome c st.stdout st.stderr code] := by
  unfold finishExit exitOutcome exitResult
  split <;> simp [attemptSettle]

theorem finishExit_log (c : Ctx) (st : RunState) (code : Option Int) :
    (finishExit c st code).log = st.log := by
  unfold finishExit
  split <;> simp [attemptSettle]

theorem stepExit_attempts (c : Ctx) (st : RunState) (code : Option Int)
    (sig : Option String) (ht : st.timedOut = false)
    (hw : c.cfg.saveLog = true → c.wfail st.writeCount = false) :
    (stepExit c st code sig).attempts =
      st.attempts ++ [exitOutcome c st.stdout st.stderr code] := by
  unfold stepExit
  by_cases hs : c.cfg.saveLog = true
  · simp [ht, hs, tryWrite, hw hs, finishExit_attempts]
  · simp [ht, hs, finishExit_attempts]

theorem stepExit_log (c : Ctx) (st : RunState) (code : Option Int)
    (sig : Option String) (ht : st.timedOut = false) (hs : c.cfg.saveLog = true)
    (hw : c.wfail st.writeCount = false) :
    (stepExit c st code sig).log = st.log ++ [.sessionEnd code sig] := by
  unfold stepExit
  simp [ht, hs, tryWrite, hw, finishExit_log]

theorem stepExit_writeFail (c : Ctx) (st : RunState) (code : Option Int)
    (sig : Option String) (ht : st.timedOut = false) (hs : c.cfg.saveLog = true)
    (hw : c.wfail st.writeCount = true) :
    (stepExit c st code sig).attempts = st.attempts := by
  unfold stepExit
  simp [ht, hs, tryWrite, hw]

theorem stepErrored_attempts (c : Ctx) (st : RunState) (m : String)
    (hw : c.cfg.saveLog = true → c.wfail st.writeCount = false) :
    (stepErrored c st m).attempts = st.attempts ++ [.rejected m] := by
  unfold stepErrored
  by_cases hs : c.cfg.saveLog = true
  · simp [hs, tryWrite, hw hs, attemptSettle]
  · simp [hs, attemptSettle]

theorem stepErrored_log (c : Ctx) (st : RunState) (m : String)
    (hs : c.cfg.saveLog = true) (hw : c.wfail st.writeCount = false) :
    (stepErrored c st m).log = st.log ++ [.errorEvent m] := by
  unfold stepErrored
  simp [hs, tryWrite, hw, attemptSettle]

theorem logStdoutStep_log (c : Ctx) (st : RunState) (s : String) :
    (logStdoutStep c st s).log = st.log ++
      (if c.cfg.effLogLevel = "full" ∧ c.cfg.saveLog = true ∧
          c.wfail st.writeCount = false
       then [.stdoutChunk s] else []) := by
  by_cases h1 : c.cfg.effLogToConsole = true <;>
    by_cases h2 : c.cfg.effLogLevel = "full" <;>
      by_cases h3 : c.cfg.saveLog = true <;>
        by_cases h4 : c.wfail st.writeCount = false <;>
          simp_all [logStdoutStep, reportIfFailed, tryWrite]

theorem logStderrStep_log (c : Ctx) (st : RunState) (s : String) :
    (logStderrStep c st s).log = st.log ++
      (if c.cfg.effLogLevel = "full" ∧ c.cfg.saveLog = true ∧
          c.wfail st.writeCount = false
       then [.stderrChunk s] else []) := by
  by_cases h1 : c.cfg.effLogToConsole = true <;>
    by_cases h2 : c.cfg.effLogLevel = "full" <;>
      by_cases h3 : c.cfg.saveLog = true <;>
        by_cases h4 : c.wfail st.writeCount = false <;>
          simp_all [logStderrStep, reportIfFailed, tryWrite]

theorem logStdoutStep_writeCount (c : Ctx) (st : RunState) (s : String) :
    (logStdoutStep c st s).writeCount = st.writeCount +
      (if c.cfg.effLogLevel = "full" ∧ c.cfg.saveLog = true then 1 else 0) := by
  by_cases h1 : c.cfg.effLogToConsole = true <;>
    by_cases h2 : c.cfg.effLogLevel = "full" <;>
      by_cases h3 : c.cfg.saveLog = true <;>
        by_cases h4 : c.wfail st.writeCount = false <;>
          simp_all [logStdoutStep, reportIfFailed, tryWrite]

theorem logStderrStep_writeCount (c : Ctx) (st : RunState) (s : String) :
    (logStderrStep c st s).writeCount = st.writeCount +
      (if c.cfg.effLogLevel = "full" ∧ c.cfg.saveLog = true then 1 else 0) := by
  by_cases h1 : c.cfg.effLogToConsole = true <;>
    by_cases h2 : c.cfg.effLogLevel = "full" <;>
      by_cases h3 : c.cfg.saveLog = true <;>
        by_cases h4 : c.wfail st.writeCount = false <;>
          simp_all [logStderrStep, reportIfFailed, tryWrite]

theorem logStdoutStep_consoleOut (c : Ctx) (st : RunState) (s : String) :
    (logStdoutStep c st s).consoleOut = st.consoleOut ++
      (if c.cfg.effLogToConsole = true then ["[stdout] " ++ s] else []) := by
  by_cases h1 : c.cfg.effLogToConsole = true <;>
    by_cases h2 : c.cfg.effLogLevel = "full" <;>
      by_cases h3 : c.cfg.saveLog = true <;>
        by_cases h4 : c.wfail st.writeCount = false <;>
          simp_all [logStdoutStep, reportIfFailed, tryWrite]

theorem procEvents_cons (c : Ctx) (st : RunState) (e : ChildEvent)
    (es : List ChildEvent) :
    procEvents c st (e :: es) = procEvents c (step c st e) es := by
  simp [procEvents]

theorem logStdoutStep_errorChannel (c : Ctx) (st : RunState) (s : String) :
    (logStdoutStep c st s).errorChannel = st.errorChannel ++
      (if c.cfg.effLogLevel = "full" ∧ c.cfg.saveLog = true ∧
          c.wfail st.writeCount = true
       then ["Log write error"] else []) := by
  by_cases h1 : c.cfg.effLogToConsole = true <;>
    by_cases h2 : c.cfg.effLogLevel = "full" <;>
      by_cases h3 : c.cfg.saveLog = true <;>
        by_cases h4 : c.wfail st.writeCount = true <;>
          simp_all [logStdoutStep, reportIfFailed, tryWrite]

theorem stepData_nonpipe (c : Ctx) (st : RunState) (isOut : Bool) (s : String)
    (hp : c.cfg.stdio ≠ .pipe) : stepData c st isOut s = st := by
  simp [stepData, hp]

theorem stepData_writeCount (c : Ctx) (st : RunState) (isOut : Bool) (s : String) :
    (stepData c st isOut s).writeCount = st.writeCount +
      (if c.cfg.saveLog = true ∧ c.cfg.stdio = .pipe ∧ c.cfg.effLogLevel = "full"
       then 1 else 0) := by
  by_cases hp : c.cfg.stdio = .pipe
  · by_cases hs : c.cfg.saveLog = true
    · by_cases hf : c.cfg.effLogLevel = "full" <;> cases isOut <;>
        simp [stepData, hp, hs, hf, logStdoutStep_writeCount,
          logStderrStep_writeCount]
    · by_cases hl : c.cfg.logging = true <;> cases isOut <;>
        simp [stepData, hp, hs, hl]
  · rw [stepData_nonpipe c st isOut s hp]
    simp [hp]

theorem stepData_parallel (cfg : Config) (pid : Nat) (li : LoggerInfo)
    (wf1 wf2 : Nat → Bool) (s1 s2 : RunState) (isOut : Bool) (dat : String)
    (h : coreEq s1 s2) :
    coreEq (stepData ⟨cfg, wf1, pid, li⟩ s1 isOut dat)
      (stepData ⟨cfg, wf2, pid, li⟩ s2 isOut dat) := by
  obtain ⟨e1, e2, e3, e4, e5, e6, e7⟩ := h
  have a1 := stepData_core ⟨cfg, wf1, pid, li⟩ s1 isOut dat
  have a2 := stepData_core ⟨cfg, wf2, pid, li⟩ s2 isOut dat
  have w1 := stepData_writeCount ⟨cfg, wf1, pid, li⟩ s1 isOut dat
  have w2 := stepData_writeCount ⟨cfg, wf2, pid, li⟩ s2 isOut dat
  by_cases hp : cfg.stdio = .pipe
  · cases isOut
    · have b1 := stepData_err_buffers ⟨cfg, wf1, pid, li⟩ s1 dat hp
      have b2 := stepData_err_buffers ⟨cfg, wf2, pid, li⟩ s2 dat hp
      exact ⟨a1.2.2.2.1.trans (e1.trans a2.2.2.2.1.symm),
        b1.1.trans (e2.trans b2.1.symm),
        b1.2.trans (by rw [e3]; exact b2.2.symm),
        a1.2.1.trans (e4.trans a2.2.1.symm),
        a1.2.2.1.trans (e5.trans a2.2.2.1.symm),
        w1.trans (by rw [e6]; exact w2.symm),
        a1.1.trans (e7.trans a2.1.symm)⟩
    · have b1 := stepData_out_buffers ⟨cfg, wf1, pid, li⟩ s1 dat hp
      have b2 := stepData_out_buffers ⟨cfg, wf2, pid, li⟩ s2 dat hp
      exact ⟨a1.2.2.2.1.trans (e1.trans a2.2.2.2.1.symm),
        b1.1.trans (by rw [e2]; exact b2.1.symm),
        b1.2.trans (e3.trans b2.2.symm),
        a1.2.1.trans (e4.trans a2.2.1.symm),
        a1.2.2.1.trans (e5.trans a2.2.2.1.symm),
        w1.trans (by rw [e6]; exact w2.symm),
        a1.1.trans (e7.trans a2.1.symm)⟩
  · rw [stepData_nonpipe ⟨cfg, wf1, pid, li⟩ s1 isOut dat hp,
      stepData_nonpipe ⟨cfg, wf2, pid, li⟩ s2 isOut dat hp]
    exact ⟨e1, e2, e3, e4, e5, e6, e7⟩

theorem procEvents_dataOnly_parallel (cfg : Config) (pid : Nat) (li : LoggerInfo)
    (wf1 wf2 : Nat → Bool) (tr : List ChildEvent) (htr : dataOnly tr = true) :
    ∀ s1 s2, coreEq s1 s2 →
    coreEq (procEvents ⟨cfg, wf1, pid, li⟩ s1 tr)
      (procEvents ⟨cfg, wf2, pid, li⟩ s2 tr) := by
  induction tr with
  | nil => intro s1 s2 h; simpa [procEvents] using h
  | cons e es ih =>
    intro s1 s2 h
    have h2 : e.isData = true ∧ dataOnly es = true := by
      simpa [dataOnly] using htr
    rw [procEvents_cons, procEvents_cons]
    cases e with
    | out s => exact ih h2.2 _ _ (stepData_parallel cfg pid li wf1 wf2 s1 s2 true s h)
    | err s => exact ih h2.2 _ _ (stepData_parallel cfg pid li wf1 wf2 s1 s2 false s h)
    | errored m => simp [ChildEvent.isData] at h2
    | exited code sig => simp [ChildEvent.isData] at h2
    | timerFired => simp [ChildEvent.isData] at h2

theorem procEvents_dataOnly_writeCount (cfg : Config) (pid : Nat)
    (li : LoggerInfo) (wf : Nat → Bool) (tr : List ChildEvent)
    (htr : dataOnly tr = true) : ∀ st : RunState,
    (procEvents ⟨cfg, wf, pid, li⟩ st tr).writeCount = st.writeCount +
      (if cfg.saveLog = true ∧ cfg.stdio = .pipe ∧ cfg.effLogLevel = "full"
       then tr.length else 0) := by
  induction tr with
  | nil => intro st; simp [procEvents]
  | cons e es ih =>
    intro st
    have h2 : e.isData = true ∧ dataOnly es = true := by
      simpa [dataOnly] using htr
    rw [procEvents_cons]
    cases e with
    | out s =>
      rw [ih h2.2]
      have hw : (step ⟨cfg, wf, pid, li⟩ st (.out s)).writeCount = st.writeCount +
          (if cfg.saveLog = true ∧ cfg.stdio = .pipe ∧ cfg.effLogLevel = "full"
           then 1 else 0) := stepData_writeCount _ st true s
      rw [hw]
      by_cases hc : cfg.saveLog = true ∧ cfg.stdio = .pipe ∧
          cfg.effLogLevel = "full" <;> simp [hc] <;> omega
    | err s =>
      rw [ih h2.2]
      have hw : (step ⟨cfg, wf, pid, li⟩ st (.err s)).writeCount = st.writeCount +
          (if cfg.saveLog = true ∧ cfg.stdio = .pipe ∧ cfg.effLogLevel = "full"
           then 1 else 0) := stepData_writeCount _ st false s
      rw [hw]
      by_cases hc : cfg.saveLog = true ∧ cfg.stdio = .pipe ∧
          cfg.effLogLevel = "full" <;> simp [hc] <;> omega
    | errored m => simp [ChildEvent.isData] at h2
    | exited code sig => simp [ChildEvent.isData] at h2
    | timerFired => simp [ChildEvent.isData] at h2

theorem persistedChunkWrites_dataOnly (cfg : Config) (tr : List ChildEvent)
    (htr : dataOnly tr = true) :
    persistedChunkWrites cfg tr =
      (if cfg.saveLog = true ∧ cfg.stdio = .pipe ∧ cfg.effLogLevel = "full"
       then tr.length else 0) := by
  have hlen : tr.countP (fun e => e.isData) = tr.length := by
    rw [List.countP_eq_length]
    rw [dataOnly, List.all_eq_true] at htr
    exact htr
  unfold persistedChunkWrites
  by_cases hc : cfg.saveLog = true ∧ cfg.stdio = .pipe ∧
      cfg.effLogLevel = "full"
  · rw [if_pos ⟨hc.1, hc.2.1, hc.2.2⟩, if_pos hc, hlen]
  · rw [if_neg ?_, if_neg hc]
    intro hcc
    exact hc ⟨hcc.1, hcc.2.1, hcc.2.2⟩

theorem step_attempts_append (c : Ctx) (st : RunState) (e : ChildEvent) :
    ∃ d, (step c st e).attempts = st.attempts ++ d := by
  cases e with
  | out s => exact ⟨[], by simpa using (stepData_core c st true s).1⟩
  | err s => exact ⟨[], by simpa using (stepData_core c st false s).1⟩
  | errored m =>
    show ∃ d, (stepErrored c st m).attempts = st.attempts ++ d
    by_cases hs : c.cfg.saveLog = true
    · by_cases hw : c.wfail st.writeCount = false
      · exact ⟨[.rejected m], stepErrored_attempts c st m fun _ => hw⟩
      · exact ⟨[], by simp_all [stepErrored, tryWrite]⟩
    · exact ⟨[.rejected m], stepErrored_attempts c st m fun h => absurd h hs⟩
  | exited code sig =>
    show ∃ d, (stepExit c st code sig).attempts = st.attempts ++ d
    cases ht : st.timedOut with
    | true => exact ⟨[], by rw [stepExit_timedOut c st code sig ht]; simp⟩
    | false =>
      by_cases hs : c.cfg.saveLog = true
      · by_cases hw : c.wfail st.writeCount = false
        · exact ⟨[exitOutcome c st.stdout st.stderr code],
            stepExit_attempts c st code sig ht fun _ => hw⟩
        · refine ⟨[], ?_⟩
          rw [stepExit_writeFail c st code sig ht hs (by simpa using hw)]
          simp
      · exact ⟨[exitOutcome c st.stdout st.stderr code],
          stepExit_attempts c st code sig ht fun h => absurd h hs⟩
  | timerFired =>
    show ∃ d, (stepTimer c st).attempts = st.attempts ++ d
    cases h1 : st.timerArmed with
    | false => exact ⟨[], by rw [stepTimer_disarmed c st h1]; simp⟩
    | true =>
      cases h : c.cfg.timeout with
      | none => exact ⟨[], by simp [stepTimer, h1, h]⟩
      | some t =>
        exact ⟨[.rejected ("Command timed out after " ++ toString t ++ "ms")], by
          simp [stepTimer, h1, h, attemptSettle]⟩

theorem step_log_append (c : Ctx) (st : RunState) (e : ChildEvent) :
    ∃ d, (step c st e).log = st.log ++ d := by
  cases e with
  | out s =>
    show ∃ d, (stepData c st true s).log = st.log ++ d
    unfold stepData
    by_cases hp : c.cfg.stdio = .pipe
    · by_cases hs : c.cfg.saveLog = true
      · exact ⟨if c.cfg.effLogLevel = "full" ∧ c.cfg.saveLog = true ∧
            c.wfail st.writeCount = false then [.stdoutChunk s] else [],
          by simp [hp, hs, logStdoutStep_log]⟩
      · by_cases hl : c.cfg.logging = true <;> exact ⟨[], by simp [hp, hs, hl]⟩
    · exact ⟨[], by simp [hp]⟩
  | err s =>
    show ∃ d, (stepData c st false s).log = st.log ++ d
    unfold stepData
    by_cases hp : c.cfg.stdio = .pipe
    · by_cases hs : c.cfg.saveLog = true
      · exact ⟨if c.cfg.effLogLevel = "full" ∧ c.cfg.saveLog = true ∧
            c.wfail st.writeCount = false then [.stderrChunk s] else [],
          by simp [hp, hs, logStderrStep_log]⟩
      · by_cases hl : c.cfg.logging = true <;> exact ⟨[], by simp [hp, hs, hl]⟩
    · exact ⟨[], by simp [hp]⟩
  | errored m =>
    show ∃ d, (stepErrored c st m).log = st.log ++ d
    by_cases hs : c.cfg.saveLog = true
    · by_cases hw : c.wfail st.writeCount = false
      · exact ⟨[.errorEvent m], stepErrored_log c st m hs hw⟩
      · exact ⟨[], by simp_all [stepErrored, tryWrite]⟩
    · exact ⟨[], by simp [stepErrored, hs, attemptSettle]⟩
  | exited code sig =>
    show ∃ d, (stepExit c st code sig).log = st.log ++ d
    cases ht : st.timedOut with
    | true => exact ⟨[], by rw [stepExit_timedOut c st code sig ht]; simp⟩
    | false =>
      by_cases hs : c.cfg.saveLog = true
      · by_cases hw : c.wfail st.writeCount = false
        · exact ⟨[.sessionEnd code sig], stepExit_log c st code sig ht hs hw⟩
        · exact ⟨[], by simp_all [stepExit, tryWrite]⟩
      · exact ⟨[], by simp [stepExit, ht, hs, finishExit_log]⟩
  | timerFired =>
    show ∃ d, (stepTimer c st).log = st.log ++ d
    cases h1 : st.timerArmed with
    | false => exact ⟨[], by rw [stepTimer_disarmed c st h1]; simp⟩
    | true =>
      cases h : c.cfg.timeout with
      | none => exact ⟨[], by simp [stepTimer, h1, h]⟩
      | some t => exact ⟨[], by simp [stepTimer, h1, h, attemptSettle]⟩

theorem procEvents_attempts_append (c : Ctx) (tr : List ChildEvent) :
    ∀ st : RunState, ∃ d, (procEvents c st tr).attempts = st.attempts ++ d := by
  induction tr with
  | nil => exact fun st => ⟨[], by simp [procEvents]⟩
  | cons e es ih =>
    intro st
    obtain ⟨d1, h1⟩ := step_attempts_append c st e
    obtain ⟨d2, h2⟩ := ih (step c st e)
    exact ⟨d1 ++ d2, by rw [procEvents_cons, h2, h1, List.append_assoc]⟩

theorem procEvents_log_append (c : Ctx) (tr : List ChildEvent) :
    ∀ st : RunState, ∃ d, (procEvents c st tr).log = st.log ++ d := by
  induction tr with
  | nil => exact fun st => ⟨[], by simp [procEvents]⟩
  | cons e es ih =>
    intro st
    obtain ⟨d1, h1⟩ := step_log_append c st e
    obtain ⟨d2, h2⟩ := ih (step c st e)
    exact ⟨d1 ++ d2, by rw [procEvents_cons, h2, h1, List.append_assoc]⟩

theorem procEvents_settled_frozen (c : Ctx) (st : RunState) (tr : List ChildEvent)
    (o : Outcome) (tl : List Outcome) (h : st.attempts = o :: tl) :
    (procEvents c st tr).settled = some o := by
  obtain ⟨d, hd⟩ := procEvents_attempts_append c tr st
  rw [RunState.settled, hd, h]
  simp

theorem procEvents_dataOnly_core (c : Ctx) (tr : List ChildEvent)
    (h : dataOnly tr = true) : ∀ st : RunState,
    (procEvents c st tr).attempts = st.attempts ∧
    (procEvents c st tr).timedOut = st.timedOut ∧
    (procEvents c st tr).timerArmed = st.timerArmed ∧
    (procEvents c st tr).spawned = st.spawned ∧
    (procEvents c st tr).actions = st.actions := by
  induction tr with
  | nil => intro st; simp [procEvents]
  | cons e es ih =>
    intro st
    have h2 : e.isData = true ∧ dataOnly es = true := by
      simpa [dataOnly] using h
    have ihs := ih h2.2 (step c st e)
    rw [procEvents_cons]
    cases e with
    | out s =>
      have hc := stepData_core c st true s
      exact ⟨ihs.1.trans hc.1, ihs.2.1.trans hc.2.1, ihs.2.2.1.trans hc.2.2.1,
        ihs.2.2.2.1.trans hc.2.2.2.1, ihs.2.2.2.2.trans hc.2.2.2.2⟩
    | err s =>
      have hc := stepData_core c st false s
      exact ⟨ihs.1.trans hc.1, ihs.2.1.trans hc.2.1, ihs.2.2.1.trans hc.2.2.1,
        ihs.2.2.2.1.trans hc.2.2.2.1, ihs.2.2.2.2.trans hc.2.2.2.2⟩
    | errored m => simp [ChildEvent.isData] at h2
    | exited code sig => simp [ChildEvent.isData] at h2
    | timerFired => simp [ChildEvent.isData] at h2

theorem procEvents_dataOnly_buffers (c : Ctx) (hp : c.cfg.stdio = .pipe)
    (tr : List ChildEvent) (h : dataOnly tr = true) : ∀ st : RunState,
    (procEvents c st tr).stdout = st.stdout ++ outConcat tr ∧
    (procEvents c st tr).stderr = st.stderr ++ errConcat tr := by
  induction tr with
  | nil => intro st; simp [procEvents, outConcat, errConcat, String.append_empty]
  | cons e es ih =>
    intro st
    have h2 : e.isData = true ∧ dataOnly es = true := by
      simpa [dataOnly] using h
    have ihs := ih h2.2 (step c st e)
    rw [procEvents_cons]
    cases e with
    | out s =>
      have hb := stepData_out_buffers c st s hp
      have h4 : (step c st (.out s)).stdout = st.stdout ++ s := hb.1
      have h5 : (step c st (.out s)).stderr = st.stderr := hb.2
      refine ⟨?_, ?_⟩
      · rw [ihs.1, h4, String.append_assoc]; exact rfl
      · rw [ihs.2, h5]; exact rfl
    | err s =>
      have hb := stepData_err_buffers c st s hp
      have h4 : (step c st (.err s)).stdout = st.stdout := hb.1
      have h5 : (step c st (.err s)).stderr = st.stderr ++ s := hb.2
      refine ⟨?_, ?_⟩
      · rw [ihs.1, h4]; exact rfl
      · rw [ihs.2, h5, String.append_assoc]; exact rfl
    | errored m => simp [ChildEvent.isData] at h2
    | exited code sig => simp [ChildEvent.isData] at h2
    | timerFired => simp [ChildEvent.isData] at h2

theorem procEvents_afterTimeout (c : Ctx) (tr : List ChildEvent)
    (hne : (tr.all fun e => !e.isErrored) = true) : ∀ st : RunState,
    st.timedOut = true → st.timerArmed = false →
    (procEvents c st tr).attempts = st.attempts ∧
    (procEvents c st tr).timedOut = true ∧
    (procEvents c st tr).timerArmed = false ∧
    (procEvents c st tr).actions = st.actions := by
  induction tr with
  | nil => intro st h1 h2; simp [procEvents, h1, h2]
  | cons e es ih =>
    intro st h1 h2
    have h3 : (!e.isErrored) = true ∧ (es.all fun e => !e.isErrored) = true := by
      simpa using hne
    rw [procEvents_cons]
    cases e with
    | out s =>
      have hc := stepData_core c st true s
      have ihs := ih h3.2 (stepData c st true s) (hc.2.1.trans h1) (hc.2.2.1.trans h2)
      exact ⟨ihs.1.trans hc.1, ihs.2.1, ihs.2.2.1, ihs.2.2.2.trans hc.2.2.2.2⟩
    | err s =>
      have hc := stepData_core c st false s
      have ihs := ih h3.2 (stepData c st false s) (hc.2.1.trans h1) (hc.2.2.1.trans h2)
      exact ⟨ihs.1.trans hc.1, ihs.2.1, ihs.2.2.1, ihs.2.2.2.trans hc.2.2.2.2⟩
    | errored m => simp [ChildEvent.isErrored] at h3
    | exited code sig =>
      have hstep : step c st (.exited code sig) = { st with timerArmed := false } :=
        stepExit_timedOut c st code sig h1
      rw [hstep]
      have ihs := ih h3.2 { st with timerArmed := false } (by simpa using h1) (by simp)
      exact ⟨ihs.1, ihs.2.1, ihs.2.2.1, ihs.2.2.2⟩
    | timerFired =>
      have hstep : step c st .timerFired = st := stepTimer_disarmed c st h2
      rw [hstep]
      exact ih h3.2 st h1 h2

theorem stepTimer_armed (c : Ctx) (st : RunState) (t : Nat)
    (h1 : st.timerArmed = true) (h : c.cfg.timeout = some t) :
    stepTimer c st = attemptSettle
      { st with
          timedOut := true,
          timerArmed := false,
          actions := st.actions ++ [.kill "SIGTERM"] }
      (.rejected ("Command timed out after " ++ toString t ++ "ms")) := by
  simp [stepTimer, h1, h]

theorem stepExit_timerArmed (c : Ctx) (st : RunState) (code : Option Int)
    (sig : Option String) : (stepExit c st code sig).timerArmed = false := by
  unfold stepExit
  by_cases ht : st.timedOut = true
  · simp [ht]
  · by_cases hs : c.cfg.saveLog = true <;>
      by_cases hw : c.wfail st.writeCount = false <;>
        simp [ht, hs, hw, tryWrite, finishExit, attemptSettle] <;>
          split <;> simp [attemptSettle]

theorem procEvents_disarmed (c : Ctx) (tr : List ChildEvent)
    (hne : (tr.all fun e => !e.isErrored && !e.isExited) = true) : ∀ st : RunState,
    st.timerArmed = false →
    (procEvents c st tr).attempts = st.attempts ∧
    (procEvents c st tr).timerArmed = false := by
  induction tr with
  | nil => intro st h1; simp [procEvents, h1]
  | cons e es ih =>
    intro st h1
    have h3 : ((!e.isErrored) = true ∧ (!e.isExited) = true) ∧
        (es.all fun e => !e.isErrored && !e.isExited) = true := by
      simpa [Bool.and_eq_true] using hne
    rw [procEvents_cons]
    cases e with
    | out s =>
      have hc := stepData_core c st true s
      have ihs := ih h3.2 (stepData c st true s) (hc.2.2.1.trans h1)
      exact ⟨ihs.1.trans hc.1, ihs.2⟩
    | err s =>
      have hc := stepData_core c st false s
      have ihs := ih h3.2 (stepData c st false s) (hc.2.2.1.trans h1)
      exact ⟨ihs.1.trans hc.1, ihs.2⟩
    | errored m => simp [ChildEvent.isErrored] at h3
    | exited code sig => simp [ChildEvent.isExited] at h3
    | timerFired =>
      have hstep : step c st .timerFired = st := stepTimer_disarmed c st h1
      rw [hstep]
      exact ih h3.2 st h1

theorem runCommand_eq (cfg : Config) (wfail : Nat → Bool) (pid : Nat)
    (li : LoggerInfo) (events : List ChildEvent) (hcmd : cfg.command ≠ "")
    (hw : cfg.saveLog = true → wfail 0 = false) :
    runCommand cfg wfail pid li events =
      procEvents ⟨cfg, wfail, pid, li⟩ (startState cfg pid li) events := by
  unfold runCommand startState
  by_cases hs : cfg.saveLog = true
  · have hw0 := hw hs
    by_cases hcp : cfg.command = "claude" ∧ cfg.stdio = .pipe <;>
      by_cases hd : cfg.detached = true <;>
        simp [tryWrite, attemptSettle, hs, hw0, hcmd, hcp, hd]
  · by_cases hcp : cfg.command = "claude" ∧ cfg.stdio = .pipe <;>
      by_cases hd : cfg.detached = true <;>
        simp [tryWrite, attemptSettle, hs, hcmd, hcp, hd]

/-!  ## The claims -/

/-- C1: in every non-detached invocation of `runCommand` with a positive
timeout, if the timer fires before the child's `exit` event then the child is
sent `SIGTERM` and the single `reject` call carries the configured duration;
the later exit handler makes no second `resolve`/`reject` call.  Conversely
when `exit` arrives first, exactly one `resolve`/`reject` call is ever made
and the timer is disarmed, so a later firing is a no-op.  Either way the
promise settles on exactly one outcome. -/
theorem runCommand_single_settlement (cfg : Config) (pid : Nat) (li : LoggerInfo)
    (t : Nat) (hdet : cfg.detached = false) (hcmd : cfg.command ≠ "")
    (ht : cfg.timeout = some t) (ht0 : 0 < t) :
    (∀ pre post, dataOnly pre = true →
      (post.all fun e => !e.isTimer && !e.isErrored) = true →
      (runCommand cfg noFail pid li (pre ++ .timerFired :: post)).attempts =
          [.rejected ("Command timed out after " ++ toString t ++ "ms")] ∧
        Action.kill "SIGTERM" ∈
          (runCommand cfg noFail pid li (pre ++ .timerFired :: post)).actions) ∧
    (∀ pre post code sig, dataOnly pre = true →
      (post.all fun e => !e.isErrored && !e.isExited) = true →
      (runCommand cfg noFail pid li (pre ++ .exited code sig :: post)).attempts.length
          = 1 ∧
      (runCommand cfg noFail pid li
          (pre ++ .exited code sig :: post)).timerArmed = false) := by
  have hnf : cfg.saveLog = true → noFail 0 = false := fun _ => rfl
  have harm : (startState cfg pid li).timerArmed = true := by
    simp only [startState, Config.hasTimer, ht]
    simp [bne_iff_ne]
    omega
  have hto : (startState cfg pid li).timedOut = false := rfl
  have hat : (startState cfg pid li).attempts = [] := by
    simp [startState, hdet]
  constructor
  · intro pre post hpre hpost
    rw [runCommand_eq cfg noFail pid li _ hcmd hnf]
    rw [show (pre ++ ChildEvent.timerFired :: post) =
        pre ++ (ChildEvent.timerFired :: post) from rfl]
    have hposterr : (post.all fun e => !e.isErrored) = true := by
      rw [List.all_eq_true] at hpost ⊢
      intro e he
      have h5 : (!e.isTimer) = true ∧ (!e.isErrored) = true := by
        simpa using hpost e he
      exact h5.2
    rw [show procEvents ⟨cfg, noFail, pid, li⟩ (startState cfg pid li)
        (pre ++ ChildEvent.timerFired :: post) =
        procEvents ⟨cfg, noFail, pid, li⟩
          (procEvents ⟨cfg, noFail, pid, li⟩ (startState cfg pid li) pre)
          (ChildEvent.timerFired :: post) from by
      simp [procEvents, List.foldl_append]]
    have hcore := procEvents_dataOnly_core ⟨cfg, noFail, pid, li⟩ pre hpre
      (startState cfg pid li)
    set st1 := procEvents ⟨cfg, noFail, pid, li⟩ (startState cfg pid li) pre with hst1
    rw [procEvents_cons]
    have hstep : step ⟨cfg, noFail, pid, li⟩ st1 .timerFired =
        attemptSettle
          { st1 with
              timedOut := true,
              timerArmed := false,
              actions := st1.actions ++ [.kill "SIGTERM"] }
          (.rejected ("Command timed out after " ++ toString t ++ "ms")) :=
      stepTimer_armed _ st1 t (hcore.2.2.1.trans harm) ht
    rw [hstep]
    have hfin := procEvents_afterTimeout ⟨cfg, noFail, pid, li⟩ post hposterr
      (attemptSettle
        { st1 with
            timedOut := true,
            timerArmed := false,
            actions := st1.actions ++ [.kill "SIGTERM"] }
        (.rejected ("Command timed out after " ++ toString t ++ "ms")))
      (by simp [attemptSettle]) (by simp [attemptSettle])
    refine ⟨?_, ?_⟩
    · rw [hfin.1]
      simp [attemptSettle, hcore.1.trans hat]
    · rw [hfin.2.2.2]
      simp [attemptSettle]
  · intro pre post code sig hpre hpost
    rw [runCommand_eq cfg noFail pid li _ hcmd hnf]
    rw [show procEvents ⟨cfg, noFail, pid, li⟩ (startState cfg pid li)
        (pre ++ ChildEvent.exited code sig :: post) =
        procEvents ⟨cfg, noFail, pid, li⟩
          (procEvents ⟨cfg, noFail, pid, li⟩ (startState cfg pid li) pre)
          (ChildEvent.exited code sig :: post) from by
      simp [procEvents, List.foldl_append]]
    have hcore := procEvents_dataOnly_core ⟨cfg, noFail, pid, li⟩ pre hpre
      (startState cfg pid li)
    set st1 := procEvents ⟨cfg, noFail, pid, li⟩ (startState cfg pid li) pre with hst1
    rw [procEvents_cons]
    have hex : (step ⟨cfg, noFail, pid, li⟩ st1 (.exited code sig)).attempts =
        st1.attempts ++ [exitOutcome ⟨cfg, noFail, pid, li⟩ st1.stdout st1.stderr code] :=
      stepExit_attempts _ st1 code sig (hcore.2.1.trans hto) (fun _ => rfl)
    have hexarm : (step ⟨cfg, noFail, pid, li⟩ st1 (.exited code sig)).timerArmed
        = false := stepExit_timerArmed _ st1 code sig
    have hfin := procEvents_disarmed ⟨cfg, noFail, pid, li⟩ post hpost
      (step ⟨cfg, noFail, pid, li⟩ st1 (.exited code sig)) hexarm
    refine ⟨?_, hfin.2⟩
    rw [hfin.1, hex, hcore.1.trans hat]
    simp

/-- Witness for C1: the `sleep 10` invocation with a 100 ms timeout, in both
orders of timer and exit. -/
theorem runCommand_single_settlement_witness :
    ((runCommand { command := "sleep", args := ["10"], timeout := some 100 }
        noFail 42 ⟨"sid0", "file0"⟩
        ([] ++ .timerFired :: [.exited none (some "SIGTERM")])).attempts =
        [.rejected ("Command timed out after " ++ toString 100 ++ "ms")] ∧
      Action.kill "SIGTERM" ∈
        (runCommand { command := "sleep", args := ["10"], timeout := some 100 }
          noFail 42 ⟨"sid0", "file0"⟩
          ([] ++ .timerFired :: [.exited none (some "SIGTERM")])).actions) ∧
    ((runCommand { command := "sleep", args := ["10"], timeout := some 100 }
        noFail 42 ⟨"sid0", "file0"⟩
        ([] ++ .exited (some 0) none :: [.timerFired])).attempts.length = 1 ∧
      (runCommand { command := "sleep", args := ["10"], timeout := some 100 }
        noFail 42 ⟨"sid0", "file0"⟩
        ([] ++ .exited (some 0) none :: [.timerFired])).timerArmed = false) :=
  ⟨(runCommand_single_settlement _ 42 _ 100 rfl (by decide) rfl (by decide)).1
      [] [.exited none (some "SIGTERM")] (by decide) (by decide),
    (runCommand_single_settlement _ 42 _ 100 rfl (by decide) rfl (by decide)).2
      [] [.timerFired] (some 0) none (by decide) (by decide)⟩

/-- C2 counterexample: the claim quantifies over every invocation, but a
detached invocation with piped stdio whose child later exits with code 1 (and
no timeout) has already resolved successfully at spawn — the call never
rejects, and its resolved value has `success := true`. -/
theorem runCommand_nonzero_exit_counterexample :
    (runCommand { command := "node", detached := true } noFail 7
        ⟨"sid0", "file0"⟩ [.exited (some 1) none]).settled =
      some (.resolved (detachedResult 7)) := by decide

/-- C2 (amended): for every non-detached invocation of `runCommand` with
captured output whose child exits with a non-zero (or null) code and that has
not timed out, the single settlement is a rejection whose message embeds the
exact exit code and the accumulated stderr, falling back to the accumulated
stdout when stderr is empty. -/
theorem runCommand_nonzero_exit_rejects (cfg : Config) (pid : Nat)
    (li : LoggerInfo) (pre : List ChildEvent) (code : Option Int)
    (sig : Option String) (hdet : cfg.detached = false) (hcmd : cfg.command ≠ "")
    (hp : cfg.stdio = .pipe) (hpre : dataOnly pre = true) (hc : code ≠ some 0) :
    (runCommand cfg noFail pid li (pre ++ [.exited code sig])).attempts =
      [.rejected ("Command failed with code " ++ codeText code ++ ": " ++
        (if errConcat pre = "" then outConcat pre else errConcat pre))] := by
  rw [runCommand_eq cfg noFail pid li _ hcmd (fun _ => rfl)]
  rw [show procEvents ⟨cfg, noFail, pid, li⟩ (startState cfg pid li)
      (pre ++ [ChildEvent.exited code sig]) =
      procEvents ⟨cfg, noFail, pid, li⟩
        (procEvents ⟨cfg, noFail, pid, li⟩ (startState cfg pid li) pre)
        [ChildEvent.exited code sig] from by
    simp [procEvents, List.foldl_append]]
  have hcore := procEvents_dataOnly_core ⟨cfg, noFail, pid, li⟩ pre hpre
    (startState cfg pid li)
  have hbuf := procEvents_dataOnly_buffers ⟨cfg, noFail, pid, li⟩ hp pre hpre
    (startState cfg pid li)
  set st1 := procEvents ⟨cfg, noFail, pid, li⟩ (startState cfg pid li) pre with hst1
  have hout : st1.stdout = outConcat pre := by
    rw [hbuf.1]
    exact rfl
  have herr : st1.stderr = errConcat pre := by
    rw [hbuf.2]
    exact rfl
  rw [procEvents_cons]
  have hex : (step ⟨cfg, noFail, pid, li⟩ st1 (.exited code sig)).attempts =
      st1.attempts ++ [exitOutcome ⟨cfg, noFail, pid, li⟩ st1.stdout st1.stderr code] :=
    stepExit_attempts _ st1 code sig (hcore.2.1.trans rfl) (fun _ => rfl)
  have hat : st1.attempts = [] := by
    rw [hcore.1]
    simp [startState, hdet]
  rw [show procEvents ⟨cfg, noFail, pid, li⟩
      (step ⟨cfg, noFail, pid, li⟩ st1 (.exited code sig)) [] =
      step ⟨cfg, noFail, pid, li⟩ st1 (.exited code sig) from rfl]
  rw [hex, hat, hout, herr]
  simp [exitOutcome, hc, failureMessage]

/-- Witness for C2 (amended): `ls` exits with code 2 after a stderr chunk. -/
theorem runCommand_nonzero_exit_rejects_witness :
    (runCommand { command := "ls" } noFail 5 ⟨"sid0", "file0"⟩
        ([.err "boom"] ++ [.exited (some 2) none])).attempts =
      [.rejected "Command failed with code 2: boom"] :=
  runCommand_nonzero_exit_rejects { command := "ls" } 5 ⟨"sid0", "file0"⟩
    [.err "boom"] (some 2) none rfl (by decide) rfl (by decide) (by decide)

/-- C3: every detached invocation (of a non-empty command, with the
`session_start` write succeeding when persistence is on) resolves with the
fixed detached result — carrying the pid and `detached = true` and no
`stdout`, `stderr` or `code` field — regardless of the entire subsequent
event trace, i.e. without waiting for exit. -/
theorem runCommand_detached_immediate (cfg : Config) (pid : Nat)
    (li : LoggerInfo) (events : List ChildEvent) (hdet : cfg.detached = true)
    (hcmd : cfg.command ≠ "") :
    (runCommand cfg noFail pid li events).settled =
        some (.resolved (detachedResult pid)) ∧
      (detachedResult pid).stdout = none ∧
      (detachedResult pid).stderr = none ∧
      (detachedResult pid).code = none ∧
      (detachedResult pid).detached = some true ∧
      (detachedResult pid).pid = pid := by
  refine ⟨?_, rfl, rfl, rfl, rfl, rfl⟩
  rw [runCommand_eq cfg noFail pid li events hcmd (fun _ => rfl)]
  apply procEvents_settled_frozen _ _ _ _ []
  simp [startState, hdet]

/-- Witness for C3: a detached `claude` task; the trace even contains a later
exit, which does not change the already-resolved value. -/
theorem runCommand_detached_immediate_witness :
    (runCommand
        { command := "claude", args := ["-p", "x"], detached := true,
          stdio := .ignore }
        noFail 99 ⟨"sid0", "file0"⟩ [.exited (some 0) none]).settled =
      some (.resolved (detachedResult 99)) :=
  (runCommand_detached_immediate
    { command := "claude", args := ["-p", "x"], detached := true,
      stdio := .ignore }
    99 ⟨"sid0", "file0"⟩ [.exited (some 0) none] rfl (by decide)).1

/-- C5 counterexample: with an empty command the call does not reject —
`spawn('')` throws `ERR_INVALID_ARG_VALUE` synchronously inside the `async`
promise executor, which converts the throw into an unhandled rejection of the
executor's own promise; the `runCommand` promise itself never settles.  At
this concrete input no `resolve`/`reject` call is ever made. -/
theorem runCommand_empty_command_counterexample :
    (runCommand { command := "" } noFail 1 ⟨"sid0", "file0"⟩ []).settled = none ∧
      (runCommand { command := "" } noFail 1 ⟨"sid0", "file0"⟩ []).spawned
        = false := by decide

/-- C5 (amended): `runCommand` performs no explicit non-empty validation; for
every invocation with an empty command no process is spawned and the call
never settles (it neither resolves nor rejects), for every write-failure
oracle and every event trace. -/
theorem runCommand_empty_command_never_settles (cfg : Config) (wf : Nat → Bool)
    (pid : Nat) (li : LoggerInfo) (events : List ChildEvent)
    (hcmd : cfg.command = "") :
    (runCommand cfg wf pid li events).spawned = false ∧
      (runCommand cfg wf pid li events).attempts = [] := by
  unfold runCommand
  by_cases hs : cfg.saveLog = true <;>
    by_cases hw : wf 0 = false <;>
      simp [hs, hw, hcmd, tryWrite]

/-- Witness for C5 (amended). -/
theorem runCommand_empty_command_witness :
    (runCommand { command := "", saveLog := true } noFail 1 ⟨"sid1", "file1"⟩
        [.timerFired]).spawned = false ∧
      (runCommand { command := "", saveLog := true } noFail 1 ⟨"sid1", "file1"⟩
        [.timerFired]).attempts = [] :=
  runCommand_empty_command_never_settles { command := "", saveLog := true }
    noFail 1 ⟨"sid1", "file1"⟩ [.timerFired] rfl

/-- C4 counterexample: the spec's merged environment and the code's
environment differ.  A caller-supplied environment that lacks `PATH` yields a
child environment without `PATH`, while merging over process defaults that
define `PATH` would keep it. -/
theorem cleanEnv_counterexample :
    cleanEnv (fun k => if k = "FOO" then some "1" else none) "PATH" = none ∧
      mergedCleanEnvSpec (fun k => if k = "PATH" then some "/usr/bin" else none)
        (fun k => if k = "FOO" then some "1" else none) "PATH" =
        some "/usr/bin" := by
  exact ⟨rfl, rfl⟩

/-- C4 (amended): the effective child environment is the caller-supplied
environment itself (`{ ...env }`, defaulting to `process.env`) with the
`CLAUDECODE` key deleted — no merge over process defaults takes place.  The
marker never reaches the child regardless of its caller-supplied value, and
every other key passes through unchanged. -/
theorem cleanEnv_strips_marker (env : EnvMap) :
    cleanEnv env "CLAUDECODE" = none ∧
      ∀ k, k ≠ "CLAUDECODE" → cleanEnv env k = env k := by
  refine ⟨rfl, fun k hk => ?_⟩
  simp [cleanEnv, hk]

/-- Witness for C4 (amended). -/
theorem cleanEnv_strips_marker_witness :
    cleanEnv (fun _ => some "v") "CLAUDECODE" = none ∧
      cleanEnv (fun _ => some "v") "PATH" = some "v" :=
  ⟨(cleanEnv_strips_marker (fun _ => some "v")).1,
    (cleanEnv_strips_marker (fun _ => some "v")).2 "PATH" (by decide)⟩

/-- C6 counterexample: a persisted invocation that terminates through the
timeout path.  The timer rejects the call (the invocation is over), the exit
handler returns at its `timedOut` guard before `logExit`, and the session log
holds only the `session_start` record — no `session_end` and no `error`
entry. -/
theorem runCommand_log_boundaries_counterexample :
    (runCommand
        { command := "sleep", args := ["10"], timeout := some 100,
          saveLog := true }
        noFail 5 ⟨"sid2", "file2"⟩
        [.timerFired, .exited none (some "SIGTERM")]).log =
        [.sessionStart "sid2" "sleep" ["10"]] ∧
      (runCommand
        { command := "sleep", args := ["10"], timeout := some 100,
          saveLog := true }
        noFail 5 ⟨"sid2", "file2"⟩
        [.timerFired, .exited none (some "SIGTERM")]).settled =
        some (.rejected "Command timed out after 100ms") := by decide

/-- C6 (amended): with persistence enabled (and log writes succeeding), a
`session_start` record is always the first log entry, written before spawn;
a `session_end` record is written on the exit path when no timeout fired;
an `error` record is written on the spawn-error path.  On the timeout path,
however, no terminal record is written (see the counterexample). -/
theorem runCommand_log_boundaries (cfg : Config) (pid : Nat) (li : LoggerInfo)
    (hs : cfg.saveLog = true) (hcmd : cfg.command ≠ "") :
    (∀ events, (runCommand cfg noFail pid li events).log.head? =
        some (.sessionStart li.sessionId cfg.command cfg.args)) ∧
    (∀ pre code sig, dataOnly pre = true →
        LogRecord.sessionEnd code sig ∈
          (runCommand cfg noFail pid li (pre ++ [.exited code sig])).log) ∧
    (∀ pre m, dataOnly pre = true →
        LogRecord.errorEvent m ∈
          (runCommand cfg noFail pid li (pre ++ [.errored m])).log) := by
  have hnf : cfg.saveLog = true → noFail 0 = false := fun _ => rfl
  refine ⟨?_, ?_, ?_⟩
  · intro events
    rw [runCommand_eq cfg noFail pid li events hcmd hnf]
    obtain ⟨d, hd⟩ := procEvents_log_append ⟨cfg, noFail, pid, li⟩ events
      (startState cfg pid li)
    rw [hd]
    simp [startState, hs]
  · intro pre code sig hpre
    rw [runCommand_eq cfg noFail pid li _ hcmd hnf]
    rw [show procEvents ⟨cfg, noFail, pid, li⟩ (startState cfg pid li)
        (pre ++ [ChildEvent.exited code sig]) =
        procEvents ⟨cfg, noFail, pid, li⟩
          (procEvents ⟨cfg, noFail, pid, li⟩ (startState cfg pid li) pre)
          [ChildEvent.exited code sig] from by
      simp [procEvents, List.foldl_append]]
    have hcore := procEvents_dataOnly_core ⟨cfg, noFail, pid, li⟩ pre hpre
      (startState cfg pid li)
    set st1 := procEvents ⟨cfg, noFail, pid, li⟩ (startState cfg pid li) pre
    have hstep : (stepExit ⟨cfg, noFail, pid, li⟩ st1 code sig).log =
        st1.log ++ [.sessionEnd code sig] :=
      stepExit_log _ st1 code sig (hcore.2.1.trans rfl) hs rfl
    rw [show procEvents ⟨cfg, noFail, pid, li⟩ st1 [ChildEvent.exited code sig] =
        stepExit ⟨cfg, noFail, pid, li⟩ st1 code sig from rfl]
    rw [hstep]
    simp
  · intro pre m hpre
    rw [runCommand_eq cfg noFail pid li _ hcmd hnf]
    rw [show procEvents ⟨cfg, noFail, pid, li⟩ (startState cfg pid li)
        (pre ++ [ChildEvent.errored m]) =
        procEvents ⟨cfg, noFail, pid, li⟩
          (procEvents ⟨cfg, noFail, pid, li⟩ (startState cfg pid li) pre)
          [ChildEvent.errored m] from by
      simp [procEvents, List.foldl_append]]
    set st1 := procEvents ⟨cfg, noFail, pid, li⟩ (startState cfg pid li) pre
    have hstep : (stepErrored ⟨cfg, noFail, pid, li⟩ st1 m).log =
        st1.log ++ [.errorEvent m] :=
      stepErrored_log _ st1 m hs rfl
    rw [show procEvents ⟨cfg, noFail, pid, li⟩ st1 [ChildEvent.errored m] =
        stepErrored ⟨cfg, noFail, pid, li⟩ st1 m from rfl]
    rw [hstep]
    simp

/-- Witness for C6 (amended): a persisted `echo hi` invocation. -/
theorem runCommand_log_boundaries_witness :
    (runCommand { command := "echo", args := ["hi"], saveLog := true } noFail 3
        ⟨"sid3", "file3"⟩ [.out "hi\n"]).log.head? =
        some (.sessionStart "sid3" "echo" ["hi"]) ∧
      LogRecord.sessionEnd (some 0) none ∈
        (runCommand { command := "echo", args := ["hi"], saveLog := true }
          noFail 3 ⟨"sid3", "file3"⟩
          ([.out "hi\n"] ++ [.exited (some 0) none])).log ∧
      LogRecord.errorEvent "spawn echo ENOENT" ∈
        (runCommand { command := "echo", args := ["hi"], saveLog := true }
          noFail 3 ⟨"sid3", "file3"⟩
          ([] ++ [.errored "spawn echo ENOENT"])).log :=
  ⟨(runCommand_log_boundaries
      { command := "echo", args := ["hi"], saveLog := true }
      3 ⟨"sid3", "file3"⟩ rfl (by decide)).1 [.out "hi\n"],
    (runCommand_log_boundaries
      { command := "echo", args := ["hi"], saveLog := true }
      3 ⟨"sid3", "file3"⟩ rfl (by decide)).2.1
      [.out "hi\n"] (some 0) none (by decide),
    (runCommand_log_boundaries
      { command := "echo", args := ["hi"], saveLog := true }
      3 ⟨"sid3", "file3"⟩ rfl (by decide)).2.2
      [] "spawn echo ENOENT" (by decide)⟩

/-- The function `exitOutcome` never consults the write-failure oracle. -/
theorem exitOutcome_wf_irrel (cfg : Config) (pid : Nat) (li : LoggerInfo)
    (wf1 wf2 : Nat → Bool) (a b : String) (code : Option Int) :
    exitOutcome ⟨cfg, wf1, pid, li⟩ a b code =
      exitOutcome ⟨cfg, wf2, pid, li⟩ a b code := rfl

/-- C7 counterexample: with persistence on, a failing `session_end` write
(the second write, index 1) leaves the call unsettled — the exit handler's
`await logger.logExit(...)` throws and `resolve` is never reached — while the
same invocation with all writes succeeding resolves normally.  So a log-write
failure does change the invocation's outcome. -/
theorem runCommand_log_write_isolation_counterexample :
    (runCommand { command := "echo", args := ["hi"], saveLog := true }
        (fun i => i == 1) 9 ⟨"sid4", "file4"⟩
        [.exited (some 0) none]).settled = none ∧
      (runCommand { command := "echo", args := ["hi"], saveLog := true }
        noFail 9 ⟨"sid4", "file4"⟩ [.exited (some 0) none]).settled =
        some (.resolved
          { success := true, stdout := some "", stderr := some "",
            code := some (some 0), pid := 9, sessionId := some "sid4",
            logFile := some "file4" }) := by decide

/-- C7 (amended): only the per-chunk log writes are isolated.  (a) For a
persisted, non-detached invocation ending in `exit`, any pattern of chunk
write failures — with the `session_start` and `session_end` writes succeeding
— yields exactly the settlement of the failure-free run.  (b) If the
`session_end` write fails, the call never settles.  (c) If the
`session_start` write fails, nothing is spawned and the call never settles.
(d) A failed chunk write is reported to the `console.error` channel. -/
theorem runCommand_log_write_isolation (cfg : Config) (pid : Nat)
    (li : LoggerInfo) (hs : cfg.saveLog = true) (hcmd : cfg.command ≠ "")
    (hdet : cfg.detached = false) :
    (∀ (wf : Nat → Bool) pre code sig, dataOnly pre = true → wf 0 = false →
      wf (1 + persistedChunkWrites cfg pre) = false →
      (runCommand cfg wf pid li (pre ++ [.exited code sig])).settled =
        (runCommand cfg noFail pid li (pre ++ [.exited code sig])).settled) ∧
    (∀ (wf : Nat → Bool) pre code sig, dataOnly pre = true → wf 0 = false →
      wf (1 + persistedChunkWrites cfg pre) = true →
      (runCommand cfg wf pid li (pre ++ [.exited code sig])).settled = none) ∧
    (∀ (wf : Nat → Bool) events, wf 0 = true →
      (runCommand cfg wf pid li events).spawned = false ∧
      (runCommand cfg wf pid li events).settled = none) ∧
    (∀ s, cfg.stdio = .pipe → cfg.effLogLevel = "full" →
      "Log write error" ∈
        (runCommand cfg (fun i => i == 1) pid li [.out s]).errorChannel) := by
  have hsplit : ∀ (wf : Nat → Bool) (pre : List ChildEvent) (e : ChildEvent),
      procEvents ⟨cfg, wf, pid, li⟩ (startState cfg pid li) (pre ++ [e]) =
        step ⟨cfg, wf, pid, li⟩
          (procEvents ⟨cfg, wf, pid, li⟩ (startState cfg pid li) pre) e := by
    intro wf pre e
    simp [procEvents, List.foldl_append]
  have hwc : ∀ (wf : Nat → Bool) (pre : List ChildEvent), dataOnly pre = true →
      (procEvents ⟨cfg, wf, pid, li⟩ (startState cfg pid li) pre).writeCount =
        1 + persistedChunkWrites cfg pre := by
    intro wf pre hpre
    rw [procEvents_dataOnly_writeCount cfg pid li wf pre hpre,
      persistedChunkWrites_dataOnly cfg pre hpre]
    simp [startState, hs]
  refine ⟨?_, ?_, ?_, ?_⟩
  · intro wf pre code sig hpre hw0 hwfin
    have hpar := procEvents_dataOnly_parallel cfg pid li wf noFail pre hpre
      (startState cfg pid li) (startState cfg pid li)
      ⟨rfl, rfl, rfl, rfl, rfl, rfl, rfl⟩
    rw [runCommand_eq cfg wf pid li _ hcmd (fun _ => hw0),
      runCommand_eq cfg noFail pid li _ hcmd (fun _ => rfl),
      hsplit wf pre _, hsplit noFail pre _]
    set st1 := procEvents ⟨cfg, wf, pid, li⟩ (startState cfg pid li) pre
    set st2 := procEvents ⟨cfg, noFail, pid, li⟩ (startState cfg pid li) pre
    have ht1 : st1.timedOut = false :=
      (procEvents_dataOnly_core ⟨cfg, wf, pid, li⟩ pre hpre _).2.1
    have ht2 : st2.timedOut = false :=
      (procEvents_dataOnly_core ⟨cfg, noFail, pid, li⟩ pre hpre _).2.1
    have hw1 : wf st1.writeCount = false := by rw [hwc wf pre hpre]; exact hwfin
    have hx1 : (step ⟨cfg, wf, pid, li⟩ st1 (.exited code sig)).attempts =
        st1.attempts ++ [exitOutcome ⟨cfg, wf, pid, li⟩ st1.stdout st1.stderr code] :=
      stepExit_attempts ⟨cfg, wf, pid, li⟩ st1 code sig ht1 (fun _ => hw1)
    have hx2 : (step ⟨cfg, noFail, pid, li⟩ st2 (.exited code sig)).attempts =
        st2.attempts ++
          [exitOutcome ⟨cfg, noFail, pid, li⟩ st2.stdout st2.stderr code] :=
      stepExit_attempts ⟨cfg, noFail, pid, li⟩ st2 code sig ht2 (fun _ => rfl)
    rw [RunState.settled, RunState.settled, hx1, hx2, hpar.2.2.2.2.2.2,
      hpar.2.1, hpar.2.2.1]
    rw [exitOutcome_wf_irrel cfg pid li wf noFail]
  · intro wf pre code sig hpre hw0 hwfin
    rw [runCommand_eq cfg wf pid li _ hcmd (fun _ => hw0), hsplit wf pre _]
    set st1 := procEvents ⟨cfg, wf, pid, li⟩ (startState cfg pid li) pre
    have hcore := procEvents_dataOnly_core ⟨cfg, wf, pid, li⟩ pre hpre
      (startState cfg pid li)
    have hw1 : wf st1.writeCount = true := by rw [hwc wf pre hpre]; exact hwfin
    have hx : (step ⟨cfg, wf, pid, li⟩ st1 (.exited code sig)).attempts =
        st1.attempts :=
      stepExit_writeFail ⟨cfg, wf, pid, li⟩ st1 code sig
        (hcore.2.1.trans rfl) hs hw1
    rw [RunState.settled, hx, hcore.1]
    simp [startState, hdet]
  · intro wf events hw0
    unfold runCommand
    simp [hs, hw0, tryWrite, RunState.settled]
  · intro s hp hf
    rw [runCommand_eq cfg (fun i => i == 1) pid li _ hcmd (fun _ => rfl)]
    rw [show procEvents ⟨cfg, fun i => i == 1, pid, li⟩ (startState cfg pid li)
        [ChildEvent.out s] =
        stepData ⟨cfg, fun i => i == 1, pid, li⟩ (startState cfg pid li) true s
        from rfl]
    rw [show stepData ⟨cfg, fun i => i == 1, pid, li⟩ (startState cfg pid li)
        true s =
        logStdoutStep ⟨cfg, fun i => i == 1, pid, li⟩
          { startState cfg pid li with
              stdout := (startState cfg pid li).stdout ++ s } s from by
      simp [stepData, hp, hs]]
    rw [logStdoutStep_errorChannel]
    have hwca : ({ startState cfg pid li with
        stdout := (startState cfg pid li).stdout ++ s } : RunState).writeCount
        = 1 := by simp [startState, hs]
    rw [hwca]
    simp [startState, hf, hs]

/-- Witness for C7 (amended): a persisted `cat` run whose single chunk write
fails: the settlement matches the failure-free run, and the failure is
reported on the error channel. -/
theorem runCommand_log_write_isolation_witness :
    ((runCommand { command := "cat", saveLog := true } (fun i => i == 1) 11
        ⟨"sid5", "file5"⟩ ([.out "a"] ++ [.exited (some 0) none])).settled =
      (runCommand { command := "cat", saveLog := true } noFail 11
        ⟨"sid5", "file5"⟩ ([.out "a"] ++ [.exited (some 0) none])).settled) ∧
      "Log write error" ∈
        (runCommand { command := "cat", saveLog := true } (fun i => i == 1) 11
          ⟨"sid5", "file5"⟩ [.out "a"]).errorChannel :=
  ⟨(runCommand_log_write_isolation { command := "cat", saveLog := true } 11
      ⟨"sid5", "file5"⟩ rfl (by decide) rfl).1 (fun i => i == 1) [.out "a"]
      (some 0) none (by decide) (by decide) (by decide),
    (runCommand_log_write_isolation { command := "cat", saveLog := true } 11
      ⟨"sid5", "file5"⟩ rfl (by decide) rfl).2.2.2 "a" rfl rfl⟩

/-- C8 counterexample: with the default options (`logging` true, hence
`logToConsole` true, `logLevel` `'full'`), a persisted invocation both echoes
the chunk to the console (inside `Logger.logStdout`) and appends it to the
session log — echo and persistence are not mutually exclusive per chunk. -/
theorem runCommand_chunk_echo_counterexample :
    "[stdout] hi\n" ∈
      (runCommand { command := "echo", args := ["hi"], saveLog := true }
        noFail 3 ⟨"sid6", "file6"⟩ [.out "hi\n"]).consoleOut ∧
      LogRecord.stdoutChunk "hi\n" ∈
        (runCommand { command := "echo", args := ["hi"], saveLog := true }
          noFail 3 ⟨"sid6", "file6"⟩ [.out "hi\n"]).log := by decide

/-- C8 (amended): per chunk of a persisted, piped invocation, the console
echo happens iff `logToConsole` (which defaults to the `logging` flag) and
the chunk is persisted iff the effective log level is `'full'` — the two are
controlled independently, not mutually exclusive.  What is exclusive in
`runCommand` is only the raw non-Logger echo path, taken when `saveLog` is
off. -/
theorem runCommand_chunk_echo_persist (cfg : Config) (pid : Nat)
    (li : LoggerInfo) (s : String) (hs : cfg.saveLog = true)
    (hp : cfg.stdio = .pipe) (hcmd : cfg.command ≠ "") :
    (("[stdout] " ++ s) ∈ (runCommand cfg noFail pid li [.out s]).consoleOut ↔
        cfg.effLogToConsole = true) ∧
      (LogRecord.stdoutChunk s ∈ (runCommand cfg noFail pid li [.out s]).log ↔
        cfg.effLogLevel = "full") := by
  rw [runCommand_eq cfg noFail pid li _ hcmd (fun _ => rfl)]
  rw [show procEvents ⟨cfg, noFail, pid, li⟩ (startState cfg pid li)
      [ChildEvent.out s] =
      stepData ⟨cfg, noFail, pid, li⟩ (startState cfg pid li) true s from rfl]
  rw [show stepData ⟨cfg, noFail, pid, li⟩ (startState cfg pid li) true s =
      logStdoutStep ⟨cfg, noFail, pid, li⟩
        { startState cfg pid li with
            stdout := (startState cfg pid li).stdout ++ s } s from by
    simp [stepData, hp, hs]]
  constructor
  · rw [logStdoutStep_consoleOut]
    by_cases hltc : cfg.effLogToConsole = true <;> simp [hltc, startState]
  · rw [logStdoutStep_log]
    by_cases hf : cfg.effLogLevel = "full" <;> simp [hf, hs, startState, noFail]

/-- Witness for C8 (amended): `echo x` with default logging options —
the chunk is both echoed and persisted. -/
theorem runCommand_chunk_echo_persist_witness :
    (("[stdout] " ++ "x") ∈
      (runCommand { command := "echo", args := ["x"], saveLog := true }
        noFail 4 ⟨"sid7", "file7"⟩ [.out "x"]).consoleOut ↔
      Config.effLogToConsole
        { command := "echo", args := ["x"], saveLog := true } = true) ∧
      (LogRecord.stdoutChunk "x" ∈
        (runCommand { command := "echo", args := ["x"], saveLog := true }
          noFail 4 ⟨"sid7", "file7"⟩ [.out "x"]).log ↔
        Config.effLogLevel
          { command := "echo", args := ["x"], saveLog := true } = "full") :=
  runCommand_chunk_echo_persist
    { command := "echo", args := ["x"], saveLog := true }
    4 ⟨"sid7", "file7"⟩ "x" rfl rfl (by decide)

theorem digitsVal_append_singleton (l : List Char) (c : Char) :
    digitsVal (l ++ [c]) = 10 * digitsVal l + digitVal c := by
  simp [digitsVal, List.foldl_append]

theorem toDigitsCore_acc (fuel : Nat) : ∀ (n : Nat) (ds : List Char),
    Nat.toDigitsCore 10 fuel n ds = Nat.toDigitsCore 10 fuel n [] ++ ds := by
  induction fuel with
  | zero => intro n ds; simp [Nat.toDigitsCore]
  | succ f ih =>
    intro n ds
    simp only [Nat.toDigitsCore]
    by_cases h : n / 10 = 0
    · simp [h]
    · rw [if_neg h, if_neg h, ih (n / 10) (Nat.digitChar (n % 10) :: ds),
        ih (n / 10) [Nat.digitChar (n % 10)], List.append_assoc]
      rfl

theorem toDigitsCore_fuel_irrel (n : Nat) : ∀ (f1 f2 : Nat), n < f1 → n < f2 →
    Nat.toDigitsCore 10 f1 n [] = Nat.toDigitsCore 10 f2 n [] := by
  induction n using Nat.strong_induction_on with
  | _ n ih =>
    intro f1 f2 h1 h2
    cases f1 with
    | zero => omega
    | succ g1 =>
      cases f2 with
      | zero => omega
      | succ g2 =>
        simp only [Nat.toDigitsCore]
        by_cases h : n / 10 = 0
        · simp [h]
        · have hlt : n / 10 < n := by omega
          rw [if_neg h, if_neg h, toDigitsCore_acc g1, toDigitsCore_acc g2,
            ih (n / 10) hlt g1 g2 (by omega) (by omega)]

theorem toDigits_peel (n : Nat) (h : n / 10 ≠ 0) :
    Nat.toDigits 10 n = Nat.toDigits 10 (n / 10) ++ [Nat.digitChar (n % 10)] := by
  have hstep : Nat.toDigits 10 n =
      Nat.toDigitsCore 10 n (n / 10) [Nat.digitChar (n % 10)] := by
    unfold Nat.toDigits
    simp only [Nat.toDigitsCore]
    rw [if_neg h]
  rw [hstep, toDigitsCore_acc n]
  have hlt : n / 10 < n := by omega
  rw [toDigitsCore_fuel_irrel (n / 10) n (n / 10 + 1) hlt (by omega)]
  rfl

theorem toDigits_base (n : Nat) (h : n / 10 = 0) :
    Nat.toDigits 10 n = [Nat.digitChar (n % 10)] := by
  unfold Nat.toDigits
  simp only [Nat.toDigitsCore]
  rw [if_pos h]

theorem digitVal_digitChar (m : Nat) (h : m < 10) :
    digitVal (Nat.digitChar m) = m := by
  have hall : ∀ k, k < 10 → digitVal (Nat.digitChar k) = k := by decide
  exact hall m h

theorem digitsVal_toDigits (n : Nat) : digitsVal (Nat.toDigits 10 n) = n := by
  induction n using Nat.strong_induction_on with
  | _ n ih =>
    by_cases h : n / 10 = 0
    · rw [toDigits_base n h]
      have h1 : digitsVal [Nat.digitChar (n % 10)] = digitVal (Nat.digitChar (n % 10)) := by
        simp [digitsVal]
      rw [h1, digitVal_digitChar (n % 10) (by omega)]
      omega
    · rw [toDigits_peel n h, digitsVal_append_singleton,
        ih (n / 10) (by omega), digitVal_digitChar (n % 10) (by omega)]
      omega

theorem toDigits_no_dash (n : Nat) : '-' ∉ Nat.toDigits 10 n := by
  induction n using Nat.strong_induction_on with
  | _ n ih =>
    have hd : ∀ k, k < 10 → Nat.digitChar k ≠ '-' := by decide
    by_cases h : n / 10 = 0
    · rw [toDigits_base n h]
      simp
      exact fun hc => hd (n % 10) (by omega) hc.symm
    · rw [toDigits_peel n h]
      intro hm
      rcases List.mem_append.mp hm with hm1 | hm2
      · exact ih (n / 10) (by omega) hm1
      · have : '-' = Nat.digitChar (n % 10) := by simpa using hm2
        exact hd (n % 10) (by omega) this.symm

theorem dash_split {a b a' b' : List Char} (ha : '-' ∉ a) (ha' : '-' ∉ a')
    (h : a ++ '-' :: b = a' ++ '-' :: b') : a = a' ∧ b = b' := by
  induction a generalizing a' with
  | nil =>
    cases a' with
    | nil => simpa using h
    | cons x xs =>
      rw [List.nil_append, List.cons_append] at h
      injection h with h1 h2
      rw [← h1] at ha'
      exact absurd (List.mem_cons_self _ _) ha'
  | cons y ys ih =>
    cases a' with
    | nil =>
      rw [List.cons_append, List.nil_append] at h
      injection h with h1 h2
      rw [h1] at ha
      exact absurd (List.mem_cons_self _ _) ha
    | cons x xs =>
      rw [List.cons_append, List.cons_append] at h
      injection h with h1 h2
      have hy : '-' ∉ ys := fun hm => ha (List.mem_cons_of_mem _ hm)
      have hx : '-' ∉ xs := fun hm => ha' (List.mem_cons_of_mem _ hm)
      obtain ⟨e1, e2⟩ := ih hy hx h2
      exact ⟨by rw [h1, e1], e2⟩

/-- C9 counterexample: two Logger instances created by two distinct
invocations (here: different `logDir` options) in the same process within the
same millisecond receive the same `sessionId` — `Date.now() + '-' + pid` does
not distinguish concurrent invocations inside one process. -/
theorem loggerCreate_sessionId_counterexample :
    (loggerCreate { logDir := some "/a" } "/w" 1700000000000 42).sessionId =
        (loggerCreate { logDir := some "/b" } "/w" 1700000000000 42).sessionId ∧
      ({ logDir := some "/a" } : LoggerOptions) ≠ { logDir := some "/b" } := by
  exact ⟨rfl, by decide⟩

/-- C9 (amended): `sessionId = Date.now() + '-' + process.pid`, so two Logger
instances share a `sessionId` exactly when they are created in the same
millisecond by the same process: the id is injective in the pair
(creation time, pid) — in particular distinct across processes, and across
different milliseconds — but collides for concurrent invocations inside one
process in the same millisecond (see the counterexample). -/
theorem loggerCreate_sessionId_inj (o1 o2 : LoggerOptions) (cwd1 cwd2 : String)
    (n1 p1 n2 p2 : Nat) :
    (loggerCreate o1 cwd1 n1 p1).sessionId =
        (loggerCreate o2 cwd2 n2 p2).sessionId ↔
      n1 = n2 ∧ p1 = p2 := by
  show sessionIdOf n1 p1 = sessionIdOf n2 p2 ↔ n1 = n2 ∧ p1 = p2
  constructor
  · intro h
    have hd : Nat.toDigits 10 n1 ++ '-' :: Nat.toDigits 10 p1 =
        Nat.toDigits 10 n2 ++ '-' :: Nat.toDigits 10 p2 := by
      have h2 := congrArg String.data h
      simp only [sessionIdOf, String.data_append] at h2
      have h3 : ∀ m : Nat, (Nat.repr m).data = Nat.toDigits 10 m := fun m => rfl
      rw [h3, h3, h3, h3] at h2
      simpa [List.append_assoc] using h2
    obtain ⟨e1, e2⟩ := dash_split (toDigits_no_dash n1) (toDigits_no_dash n2) hd
    constructor
    · have h5 := congrArg digitsVal e1
      rwa [digitsVal_toDigits, digitsVal_toDigits] at h5
    · have h5 := congrArg digitsVal e2
      rwa [digitsVal_toDigits, digitsVal_toDigits] at h5
  · rintro ⟨rfl, rfl⟩
    rfl

/-- Witness for C9 (amended), at concrete creation data. -/
theorem loggerCreate_sessionId_inj_witness :
    (loggerCreate {} "/w" 5 7).sessionId =
        (loggerCreate { logDir := some "/other" } "/w2" 5 7).sessionId ↔
      5 = 5 ∧ 7 = 7 :=
  loggerCreate_sessionId_inj {} { logDir := some "/other" } "/w" "/w2" 5 7 5 7

theorem foldl_preserve {α β : Type} (P : β → Prop) (f : β → α → β)
    (h : ∀ b a, P b → P (f b a)) : ∀ (l : List α) (b : β), P b → P (l.foldl f b) := by
  intro l
  induction l with
  | nil => intro b hb; simpa using hb
  | cons x xs ih => intro b hb; exact ih (f b x) (h b x hb)

theorem scanFile_preserve (limit : Nat) (acc : List SessionRec × Bool)
    (f : LogFileRec)
    (h : (acc.2 = true → acc.1.length ≤ limit) ∧
      (acc.2 = false → acc.1.length < limit)) :
    ((scanFile limit acc f).2 = true → (scanFile limit acc f).1.length ≤ limit) ∧
      ((scanFile limit acc f).2 = false →
        (scanFile limit acc f).1.length < limit) := by
  unfold scanFile
  by_cases h2 : acc.2 = true
  · simpa [h2] using h
  · have hlt : acc.1.length < limit := h.2 (by simpa using h2)
    by_cases h3 : nameEndsWith f.name ".log" = true
    · cases hl : f.lines.head? with
      | none => simpa [h2, h3, hl] using h
      | some line =>
        cases line with
        | malformed raw => simpa [h2, h3, hl] using h
        | parsed e =>
          by_cases h4 : e.type = "session_start"
          · simp only [h2, h3, hl, h4, Bool.false_eq_true, if_false, if_true]
            constructor
            · intro _
              simp [List.length_append]
              omega
            · intro hfl
              have := of_decide_eq_false hfl
              simpa [List.length_append] using this
          · simpa [h2, h3, hl, h4] using h
    · simpa [h2, h3] using h

theorem getRecentSessions_length (fs : List DateDir) (limit : Nat)
    (hl : 0 < limit) : (getRecentSessions fs limit).length ≤ limit := by
  unfold getRecentSessions
  have hstep : ∀ (acc : List SessionRec × Bool) (f : LogFileRec),
      ((acc.2 = true → acc.1.length ≤ limit) ∧
        (acc.2 = false → acc.1.length < limit)) →
      ((scanFile limit acc f).2 = true →
          (scanFile limit acc f).1.length ≤ limit) ∧
        ((scanFile limit acc f).2 = false →
          (scanFile limit acc f).1.length < limit) :=
    fun acc f h => scanFile_preserve limit acc f h
  have hdir : ∀ (acc : List SessionRec × Bool) (dd : DateDir),
      ((acc.2 = true → acc.1.length ≤ limit) ∧
        (acc.2 = false → acc.1.length < limit)) →
      (((sortDesc (fun f => f.name) dd.files).foldl (scanFile limit) acc).2 = true →
          ((sortDesc (fun f => f.name) dd.files).foldl
            (scanFile limit) acc).1.length ≤ limit) ∧
        (((sortDesc (fun f => f.name) dd.files).foldl
            (scanFile limit) acc).2 = false →
          ((sortDesc (fun f => f.name) dd.files).foldl
            (scanFile limit) acc).1.length < limit) := by
    intro acc dd h
    exact foldl_preserve
      (fun b => (b.2 = true → b.1.length ≤ limit) ∧
        (b.2 = false → b.1.length < limit))
      (scanFile limit) hstep (sortDesc (fun f => f.name) dd.files) acc h
  have hfin := foldl_preserve
    (fun b : List SessionRec × Bool =>
      (b.2 = true → b.1.length ≤ limit) ∧ (b.2 = false → b.1.length < limit))
    (fun acc dd => (sortDesc (fun f => f.name) dd.files).foldl (scanFile limit) acc)
    hdir (sortDesc (fun dd => dd.date) fs) ([], false)
    ⟨by simp, by simpa using hl⟩
  set r := (sortDesc (fun dd => dd.date) fs).foldl
    (fun acc dd => (sortDesc (fun f => f.name) dd.files).foldl (scanFile limit) acc)
    ([], false)
  cases hb : r.2 with
  | true => exact hfin.1 hb
  | false => exact Nat.le_of_lt (hfin.2 hb)

/-- C10: `viewLog` resolves a session id only through the
`getRecentSessions(_, 100)` index.  (1) Whenever the id is not in that index —
even though a file on disk holds a `session_start` entry with that id, e.g.
beyond the 100 cutoff or behind an unparseable first line — `viewLog` fails
with the `Session ... not found` error.  (2) When the index resolves the id,
`viewLog` returns exactly the parseable lines of that session's file, in file
order, silently skipping malformed lines.  (3) The index never holds more
than 100 sessions. -/
theorem viewLog_spec :
    (∀ (fs : List DateDir) (sid : String),
      (getRecentSessions fs 100).find? (fun s => s.sessionId == some sid) = none →
      (∃ dd ∈ fs, ∃ f ∈ dd.files, ∃ e : Entry,
        LogLine.parsed e ∈ f.lines ∧ e.type = "session_start" ∧
          e.sessionId = some sid) →
      viewLog sid fs = .error ("Session " ++ sid ++ " not found")) ∧
    (∀ (fs : List DateDir) (sid : String) (s : SessionRec),
      (getRecentSessions fs 100).find? (fun x => x.sessionId == some sid) = some s →
      viewLog sid fs = .ok (parseLines s.fileLines)) ∧
    (∀ fs : List DateDir, (getRecentSessions fs 100).length ≤ 100) := by
  refine ⟨?_, ?_, ?_⟩
  · intro fs sid hnone _
    simp [viewLog, hnone]
  · intro fs sid s hsome
    simp [viewLog, hsome]
  · intro fs
    exact getRecentSessions_length fs 100 (by omega)

/-- Witness for C10: a session log whose only file holds a `session_start`
entry for id `b` behind a malformed first line; the file exists but the index
skips it, so `viewLog` reports the session as not found. -/
theorem viewLog_spec_witness :
    viewLog "b" [⟨"2025-10-11", [⟨"session-x.log",
        [.malformed "oops",
          .parsed ⟨"session_start", some "b", none, none, none⟩]⟩]⟩] =
      .error ("Session " ++ "b" ++ " not found") :=
  viewLog_spec.1
    [⟨"2025-10-11", [⟨"session-x.log",
      [.malformed "oops",
        .parsed ⟨"session_start", some "b", none, none, none⟩]⟩]⟩]
    "b" (by decide)
    ⟨⟨"2025-10-11", [⟨"session-x.log",
        [.malformed "oops",
          .parsed ⟨"session_start", some "b", none, none, none⟩]⟩]⟩,
      by decide,
      ⟨"session-x.log",
        [.malformed "oops",
          .parsed ⟨"session_start", some "b", none, none, none⟩]⟩,
      by decide,
      ⟨"session_start", some "b", none, none, none⟩,
      by decide, rfl, rfl⟩

end ClaudeSpawn
